import Mathlib

/-!
Verification development for the Appli form-interaction engine.

The Python sources under study are embedded shallowly below:
pure helpers become Lean functions, the Playwright page is modelled as an
explicit association of selectors to field values, fallible code returns
`Except`, and machine behaviour that the code relies on from its runtime
(string methods, `difflib.SequenceMatcher`, JSON decoding) is translated
from the documented semantics of those libraries for the ASCII inputs that occur
here.  Every definition cites the source file and function it embeds.
-/

set_option maxRecDepth 4096

namespace Appli

/- ===================================================================
   Python string primitives.
   `pyLower` models `str.lower` (ASCII range, all inputs in the claims
   are ASCII), `pyStrip` models `str.strip`, `listIsSub`/`pyInStr`
   model the substring test `needle in hay` (the empty needle is a
   substring of everything, as in Python).
   =================================================================== -/

def lowerChar (c : Char) : Char :=
  if 'A' ≤ c ∧ c ≤ 'Z' then Char.ofNat (c.toNat + 32) else c

def pyLower (s : String) : String :=
  ⟨s.data.map lowerChar⟩

def pyStrip (s : String) : String :=
  ⟨(((s.data.dropWhile Char.isWhitespace).reverse.dropWhile Char.isWhitespace).reverse)⟩

def listIsSub (needle : List Char) : List Char → Bool
  | [] => needle.isEmpty
  | c :: rest => needle.isPrefixOf (c :: rest) || listIsSub needle rest

def pyInStr (needle hay : String) : Bool :=
  listIsSub needle.data hay.data

def pyStartsWith (s pre : String) : Bool :=
  pre.data.isPrefixOf s.data

/-- Python truthiness of an optional string (`None` and `""` are falsy). -/
def optTruthy : Option String → Bool
  | some s => !(s == "")
  | none => false

/- ===================================================================
   Selector resolution — src/plan_executor.py, `_ensure_locator`
   (lines 125-143) and the per-handler `allow_multiple` flags at the
   call sites in `_handle_click` / `_handle_fill` / `_handle_press` /
   `_handle_select` / `_handle_check` / `_handle_uncheck` /
   `_handle_upload`.
   =================================================================== -/

/-- src/plan_executor.py lines 126-134: a selector of the form `#<digit>...`
is rewritten to an attribute-equality selector before resolution. -/
def fixSelector (selector : String) : String :=
  match selector.data with
  | '#' :: c :: _ =>
    if c.isDigit then "[id=\"" ++ selector.drop 1 ++ "\"]" else selector
  | _ => selector

/-- Outcome of `_ensure_locator`: the concrete selector that was queried,
whether the handler narrowed a multi-match to `.first`, and whether the
multi-match warning was printed. -/
structure LocatorResolution where
  fixedSelector : String
  usedFirst : Bool
  warned : Bool
deriving DecidableEq, Repr

/-- src/plan_executor.py lines 125-143 (`_ensure_locator`), with the page
abstracted to the match count of each concrete selector.  A zero count
raises `PlanExecutionError`; a multi-match is narrowed to the first node
with a warning only when `allowMultiple` is set, and is otherwise returned
unnarrowed and silently. -/
def ensureLocator (count : String → Nat) (selector : String) (allowMultiple : Bool) :
    Except String LocatorResolution :=
  let fixed := fixSelector selector
  if count fixed == 0 then
    .error "did not match any nodes"
  else if decide (count fixed > 1) && allowMultiple then
    .ok ⟨fixed, true, true⟩
  else
    .ok ⟨fixed, false, false⟩

/-- The `allow_multiple` flag each action handler passes to
`_ensure_locator`: `True` in `_handle_click` (line 154), `_handle_press`
(line 177) and `_handle_check` (line 855); omitted (hence `False`) in
`_handle_fill` (line 161), `_handle_select` (line 345), `_handle_uncheck`
(line 880) and `_handle_upload` (line 909). -/
def handlerAllowsMultiple : String → Bool
  | "click" => true
  | "press" => true
  | "check" => true
  | _ => false

/-- Concrete page for the C7 counterexample: the selector `"input.x"`
matches two live nodes. -/
def c7Counts : String → Nat :=
  fun s => if s == "input.x" then 2 else 0

/- ===================================================================
   Dropdown entry decision — src/plan_executor.py, `_handle_select`
   lines 371-405: classify native vs custom, then the custom-dropdown
   short-circuit that runs before the widget is clicked open.
   =================================================================== -/

/-- The data `_handle_select` reads from the resolved locator before
deciding how to proceed: `el.tagName.toLowerCase()` (line 372) and the
chain `input_value() or get_attribute("value") or text_content()`
(line 390), where `none` stands for an empty/absent result or a raised
read (the `except` clause at line 401). -/
structure DropdownProbe where
  tagName : String
  readValue : Option String

/-- The three ways the entry of `_handle_select` can proceed:
`nativeSelect` is the `tag_name == "select"` branch (lines 374-382);
`shortCircuit existing` is the early `return` at line 400 taken with the
stripped existing value; `openWidget` is falling through to
`locator.click()` at line 405. -/
inductive SelectDecision where
  | nativeSelect
  | shortCircuit (existing : String)
  | openWidget
deriving DecidableEq, Repr

/-- src/plan_executor.py lines 371-405: the entry of `_handle_select` for a
step requesting `stepValue`.  Mirrors the source conditions exactly,
including the final disjunct `existing_value and len(existing_value) > 0`
that accepts any non-empty stripped value. -/
def selectEntryDecision (stepValue : String) (probe : DropdownProbe) : SelectDecision :=
  if probe.tagName == "select" then
    .nativeSelect
  else
    match probe.readValue with
    | some ev =>
      if ev == "" then .openWidget
      else
        let evS := pyStrip ev
        if pyLower evS == pyLower stepValue
            || pyInStr (pyLower stepValue) (pyLower evS)
            || pyInStr (pyLower evS) (pyLower stepValue)
            || (!(evS == "") && decide (evS.length > 0)) then
          .shortCircuit evS
        else .openWidget
    | none => .openWidget

/-- The page-mutating browser operations performed by the entry of
`_handle_select` under each decision: the short-circuit returns before any
click or write (line 400), the native branch calls `select_option`
(line 377), and the custom path starts by clicking the widget open
(line 405). -/
def selectEntryEffects (stepValue : String) (probe : DropdownProbe) : List String :=
  match selectEntryDecision stepValue probe with
  | .nativeSelect => ["select_option"]
  | .shortCircuit _ => []
  | .openWidget => ["click"]

/- ===================================================================
   JSON values and plan validation — src/action_parser.py.
   `JValue` models the structured data produced by `json.loads` after
   code-fence stripping; a raw payload that is not well-formed JSON never
   reaches `parse_playwright_plan`s structural checks (it becomes an
   `ActionParserError` inside `_load_json_block`), so the structural part
   is embedded over decoded values.
   =================================================================== -/

inductive JValue where
  | jnull
  | jbool (b : Bool)
  | jnum (n : Int)
  | jstr (s : String)
  | jarr (xs : List JValue)
  | jobj (fields : List (String × JValue))

/-- Python truthiness of a decoded JSON value (also used for `dict.get`
results, where an absent key yields the falsy `None`, modelled by
`jnull`). -/
def jtruthy : JValue → Bool
  | .jnull => false
  | .jbool b => b
  | .jnum n => !(n == 0)
  | .jstr s => !(s == "")
  | .jarr xs => !xs.isEmpty
  | .jobj fs => !fs.isEmpty

/-- Python `dict.get(k)`: the value at the first matching key, else `None`. -/
def jget (fields : List (String × JValue)) (k : String) : JValue :=
  match fields.find? (fun kv => kv.fst == k) with
  | some kv => kv.snd
  | none => .jnull

/-- Python `str()` on a decoded JSON value.  For containers only the
truthiness-relevant fact (the rendering is non-empty and is never one of
the enumerated status words) matters to the parser, so their rendering is
abbreviated. -/
def jstrOf : JValue → String
  | .jnull => "None"
  | .jbool b => if b then "True" else "False"
  | .jnum n => toString n
  | .jstr s => s
  | .jarr _ => "[...]"
  | .jobj _ => "\x7b...\x7d"

/-- src/action_parser.py lines 16-27 (`PLAYWRIGHT_ACTIONS`). -/
def playwrightActions : List String :=
  ["goto", "click", "fill", "press", "select_option", "check", "uncheck",
   "wait_for_selector", "wait_for_timeout", "upload_file"]

/-- src/action_parser.py lines 43-48 (`PlaywrightStep`).  The non-action
fields keep the raw JSON values the dataclass would receive. -/
structure PlaywrightStep where
  action : String
  selector : JValue
  value : JValue
  reason : JValue

/-- src/action_parser.py lines 51-56 (`PlaywrightPlan`). -/
structure PlaywrightPlan where
  summary : String
  assumptions : List String
  steps : List PlaywrightStep
  status : String

/-- src/action_parser.py lines 109-131: validation of one entry of the
`steps` list.  A non-dict entry raises (line 111); the `action` membership
check (line 118) precedes the selector check (line 121). -/
def parseStepJ (st : JValue) : Except String PlaywrightStep :=
  match st with
  | .jobj sm =>
    match jget sm "action" with
    | .jstr a =>
      if !(playwrightActions.contains a) then .error "Unsupported action"
      else if !(a == "wait_for_timeout") && !(jtruthy (jget sm "selector")) then
        .error "Step requires a selector"
      else .ok ⟨a, jget sm "selector", jget sm "value", jget sm "reason"⟩
    | _ => .error "Unsupported action"
  | _ => .error "Step is not an object"

/-- The `for idx, step in enumerate(steps_data)` loop of
src/action_parser.py lines 108-131: stops at the first invalid step. -/
def parseStepsJ : List JValue → Except String (List PlaywrightStep)
  | [] => .ok []
  | st :: rest =>
    match parseStepJ st with
    | .error e => .error e
    | .ok s =>
      match parseStepsJ rest with
      | .error e => .error e
      | .ok ss => .ok (s :: ss)

/-- How `parse_playwright_plan` can finish: a validated plan, an
`ActionParserError` (the only exception its contract names), or an
unhandled Python exception (`AttributeError` from calling `.get` on a
non-dict payload at line 87). -/
inductive ParseOutcome where
  | ok (plan : PlaywrightPlan)
  | err (msg : String)
  | pyerr

/-- The validation body of `parse_playwright_plan`
(src/action_parser.py lines 89-138) over the effective plan object, in
source order: summary, status, assumptions type, steps type,
pending-empty, then the step loop; falsy `assumptions`/`steps` fields are
normalised to `[]` before the type checks (lines 91-92).  This part
raises only `ActionParserError`, hence `Except`. -/
def parsePlanObject (m : List (String × JValue)) : Except String PlaywrightPlan :=
  let summary := pyStrip (if jtruthy (jget m "summary") then jstrOf (jget m "summary") else "")
  let status := pyLower (if jtruthy (jget m "status") then jstrOf (jget m "status") else "pending")
  let assumptions := if jtruthy (jget m "assumptions") then jget m "assumptions" else .jarr []
  let stepsData := if jtruthy (jget m "steps") then jget m "steps" else .jarr []
  if summary == "" then .error "Plan summary is missing."
  else if !(["pending", "confirmed", "blocked", "error"].contains status) then
    .error "Plan status must be one of: pending, confirmed, blocked, error."
  else
    match assumptions with
    | .jarr assumptionsList =>
      match stepsData with
      | .jarr stepsList =>
        if stepsList.isEmpty && status == "pending" then
          .error "Pending plans must include at least one step."
        else
          match parseStepsJ stepsList with
          | .error e => .error e
          | .ok steps => .ok ⟨summary, assumptionsList.map jstrOf, steps, status⟩
      | _ => .error "Plan steps field must be a list."
    | _ => .error "Assumptions must be a list of strings."

/-- src/action_parser.py lines 82-138 (`parse_playwright_plan`) applied to
the decoded payload: `payload.get("plan") or payload` tolerates a
`"plan"` wrapper key (line 87), then the validation body runs; a non-dict
payload or wrapper value dies with `AttributeError` (`pyerr`). -/
def parsePlaywrightPlan (payload : JValue) : ParseOutcome :=
  match payload with
  | .jobj pf =>
    match (if jtruthy (jget pf "plan") then jget pf "plan" else .jobj pf) with
    | .jobj m =>
      match parsePlanObject m with
      | .ok p => .ok p
      | .error e => .err e
    | _ => .pyerr
  | _ => .pyerr

/-- The effective plan object: the payload itself, or the object under a
truthy `"plan"` key.  `none` when the code would die with an
`AttributeError` instead of running its validation checks. -/
def planDataOf (payload : JValue) : Option (List (String × JValue)) :=
  match payload with
  | .jobj pf =>
    match (if jtruthy (jget pf "plan") then jget pf "plan" else .jobj pf) with
    | .jobj m => some m
    | _ => none
  | _ => none

/- The claim-side rejection conditions, phrased field by field from the
claim text (C3) so the raises-iff theorem compares the code against the
claim rather than against itself. -/

/-- Claim C3: "summary is empty" — the summary field, defaulted and
stringified as the tolerant parser does, strips to the empty string. -/
def claimSummaryEmpty (m : List (String × JValue)) : Bool :=
  pyStrip (if jtruthy (jget m "summary") then jstrOf (jget m "summary") else "") == ""

/-- Claim C3: "status is outside \x7bpending, confirmed, blocked, error\x7d"
(after the tolerant default to pending and lowercasing). -/
def claimStatusBad (m : List (String × JValue)) : Bool :=
  !(["pending", "confirmed", "blocked", "error"].contains
      (pyLower (if jtruthy (jget m "status") then jstrOf (jget m "status") else "pending")))

/-- Whether a JSON value is a sequence (`isinstance(x, list)`). -/
def isArrB : JValue → Bool
  | .jarr _ => true
  | _ => false

/-- The elements of a JSON sequence (else nothing). -/
def asArr : JValue → List JValue
  | .jarr l => l
  | _ => []

/-- Amended clause of C3: "steps is truthy but not a sequence" (a falsy
steps field — absent, null, false, 0, empty containers — is normalised to
the empty sequence instead of being rejected). -/
def claimStepsNotSeq (m : List (String × JValue)) : Bool :=
  jtruthy (jget m "steps") && !(isArrB (jget m "steps"))

/-- Amendment of C3: "assumptions is truthy but not a sequence" — a
condition the original claim omits. -/
def claimAssumptionsNotSeq (m : List (String × JValue)) : Bool :=
  jtruthy (jget m "assumptions") && !(isArrB (jget m "assumptions"))

/-- The effective step list after normalising a falsy steps field. -/
def effectiveSteps (m : List (String × JValue)) : List JValue :=
  asArr (if jtruthy (jget m "steps") then jget m "steps" else .jarr [])

/-- Claim C3: "status is pending with an empty step list". -/
def claimPendingEmpty (m : List (String × JValue)) : Bool :=
  (effectiveSteps m).isEmpty &&
    pyLower (if jtruthy (jget m "status") then jstrOf (jget m "status") else "pending") == "pending"

/-- Claim C3, per-step clauses: "some steps action is outside the
enumerated action set" (a step that is not an object counts as having no
action, hence an action outside the set) "or some step other than
wait_for_timeout lacks a non-empty selector". -/
def claimStepBad (st : JValue) : Bool :=
  match st with
  | .jobj sm =>
    match jget sm "action" with
    | .jstr a =>
      !(playwrightActions.contains a) ||
        (!(a == "wait_for_timeout") && !(jtruthy (jget sm "selector")))
    | _ => true
  | _ => true

/-- The full rejection condition of claim C3 as amended: the disjunction of
the per-field clauses above. -/
def claimRejects (m : List (String × JValue)) : Bool :=
  claimSummaryEmpty m || claimStatusBad m || claimAssumptionsNotSeq m ||
    claimStepsNotSeq m || claimPendingEmpty m || (effectiveSteps m).any claimStepBad

/-- The rejection condition of claim C3 exactly as originally stated:
no assumptions clause, and "steps is not a sequence" read as "the steps
field is present, non-null and not a sequence". -/
def claimRejectsOriginal (m : List (String × JValue)) : Bool :=
  claimSummaryEmpty m || claimStatusBad m ||
    (!(match jget m "steps" with | .jnull => true | .jarr _ => true | _ => false)) ||
    claimPendingEmpty m || (effectiveSteps m).any claimStepBad

/-- Bool observer: did `parse_playwright_plan` raise `ActionParserError`. -/
def parseOutcomeIsErr : ParseOutcome → Bool
  | .err _ => true
  | _ => false

/-- Bool observer: did `parse_playwright_plan` return a plan. -/
def parseOutcomeIsOk : ParseOutcome → Bool
  | .ok _ => true
  | _ => false

/-- Bool observer: did the step loop succeed. -/
def parseStepsOkB (l : List JValue) : Bool :=
  match parseStepsJ l with
  | .ok _ => true
  | .error _ => false

/-- The plan object inside `c3GoodPayload` (under its "plan" key). -/
def c3GoodPlanData : List (String × JValue) :=
  [("summary", .jstr "Apply"), ("status", .jstr "pending"),
   ("assumptions", .jarr [.jstr "page loaded"]),
   ("steps", .jarr [.jobj [("action", .jstr "fill"),
                           ("selector", .jstr "#name"),
                           ("value", .jstr "Ada")]])]

/-- C3 counterexample payload: a confirmed plan whose `assumptions` field
is the number 42 — none of the claims enumerated rejection conditions
hold, yet the parser raises `ActionParserError`. -/
def c3Payload : JValue :=
  .jobj [("summary", .jstr "Fill the form"), ("status", .jstr "confirmed"),
         ("assumptions", .jnum 42), ("steps", .jarr [])]

/-- A well-formed pending payload used as the C3 witness input. -/
def c3GoodPayload : JValue :=
  .jobj [("plan", .jobj [("summary", .jstr "Apply"), ("status", .jstr "pending"),
         ("assumptions", .jarr [.jstr "page loaded"]),
         ("steps", .jarr [.jobj [("action", .jstr "fill"),
                                 ("selector", .jstr "#name"),
                                 ("value", .jstr "Ada")]])])]

/- ===================================================================
   difflib.SequenceMatcher.ratio — the Python standard library routine
   `_fuzzy_match` builds on (src/plan_executor.py line 214).  For the
   short strings involved (far below the 200-element autojunk threshold)
   there is no junk, so `find_longest_match` is the plain
   longest-common-contiguous-block dynamic program with first-(i, j)
   tie-breaking, the junk-extension passes are no-ops, and `ratio()` is
   2 * (total matched) / (len(a) + len(b)).  Floats are modelled as exact
   rationals; every comparison in the claims is far from a rounding
   boundary.
   =================================================================== -/

def flmRowGo (c : Char) : List (Char × Nat) → List Nat
  | [] => []
  | (bc, diag) :: rest => (if bc == c then diag + 1 else 0) :: flmRowGo c rest

/-- One row of the `j2len` dynamic program of
`SequenceMatcher.find_longest_match`: the length of the common suffix
ending at `(i, j)`. -/
def flmRow (c : Char) (b : List Char) (prevRow : List Nat) : List Nat :=
  flmRowGo c (b.zip (0 :: prevRow))

/-- Record update `if k > bestsize` while scanning row `i` with `j`
ascending, matching the iteration order of difflib. -/
def bestInRow (i : Nat) : Nat → List Nat → Nat × Nat × Nat → Nat × Nat × Nat
  | _, [], best => best
  | j, k :: rest, (bi, bj, bs) =>
    if k > bs then bestInRow i (j + 1) rest (i + 1 - k, j + 1 - k, k)
    else bestInRow i (j + 1) rest (bi, bj, bs)

def flmGo (b : List Char) : List Char → Nat → List Nat → Nat × Nat × Nat → Nat × Nat × Nat
  | [], _, _, best => best
  | c :: arest, i, prevRow, best =>
    let row := flmRow c b prevRow
    flmGo b arest (i + 1) row (bestInRow i 0 row best)

/-- Result of `SequenceMatcher(None, a, b).find_longest_match(0, len(a), 0, len(b))`
with no junk: `(besti, bestj, bestsize)`. -/
def findLongestMatch (a b : List Char) : Nat × Nat × Nat :=
  flmGo b a 0 (b.map (fun _ => 0)) (0, 0, 0)

/-- Total matched length over `get_matching_blocks` (the recursive split
around each longest match).  The fuel argument bounds the recursion depth
(every recursive call strictly shortens `a`, so `a.length + 1` is always
enough). -/
def matchedTotal : Nat → List Char → List Char → Nat
  | 0, _, _ => 0
  | fuel + 1, a, b =>
    match findLongestMatch a b with
    | (i, j, k) =>
      if k == 0 then 0
      else
        matchedTotal fuel (a.take i) (b.take j) + k +
          matchedTotal fuel (a.drop (i + k)) (b.drop (j + k))

/-- Python floats modelled as exact integer fractions (denominator
positive, not normalised).  Every score in `_fuzzy_match` is a small
rational far from any double-rounding boundary, so exact fraction
comparison coincides with the float comparison the code performs. -/
structure PyFloat where
  num : Int
  den : Int
deriving DecidableEq, Repr

/-- Exact `<` on fraction-modelled floats (positive denominators). -/
def pfLt (a b : PyFloat) : Bool :=
  a.num * b.den < b.num * a.den

/-- Python `max(a, b)` (returns `b` only when it is strictly greater). -/
def pfMax (a b : PyFloat) : PyFloat :=
  if pfLt a b then b else a

/-- Value of `SequenceMatcher(None, a, b).ratio()` as an exact fraction:
`2.0 * matches / (len(a) + len(b))`, and 1.0 for two empty sequences. -/
def seqRatio (a b : String) : PyFloat :=
  if a.data.length + b.data.length == 0 then ⟨1, 1⟩
  else ⟨2 * (matchedTotal (a.data.length + 1) a.data b.data : Int),
        (a.data.length + b.data.length : Int)⟩

/- ===================================================================
   Fuzzy matching — src/plan_executor.py lines 186-247 (`_fuzzy_match`).
   =================================================================== -/

/-- src/plan_executor.py lines 197-203 (`semantic_groups`), verbatim,
including the phrase "decline to self verify". -/
def semanticGroups : List (List String) :=
  [["prefer not to say", "decline to self verify", "decline to answer",
    "prefer not to answer", "do not wish to answer", "no response",
    "not specified", "unspecified", "other"],
   ["yes", "y", "true", "agree", "accept", "confirm"],
   ["no", "n", "false", "disagree", "decline", "reject", "deny"],
   ["other", "others", "other (please specify)", "other (specify)",
    "not listed", "none of the above"]]

/-- src/plan_executor.py line 231 (`key_words`). -/
def keyWords : List String :=
  ["prefer", "decline", "not", "other", "none", "unspecified"]

/-- The score of one candidate option (the body of the `for option in
options` loop, src/plan_executor.py lines 212-241): base SequenceMatcher
ratio, raised to 0.85 on shared semantic-group membership, to 0.8 on
containment either way, and to 0.75 on a shared key discriminator word
(per-word, both sides). -/
def fuzzyOptionRatio (targetLower : String) (targetGroup : Option (List String))
    (option : String) : PyFloat :=
  let optionLower := pyLower option
  let r0 := seqRatio targetLower optionLower
  let r1 :=
    match targetGroup with
    | some g => if g.any (fun p => pyInStr p optionLower) then pfMax r0 ⟨85, 100⟩ else r0
    | none => r0
  let r2 := if pyInStr targetLower optionLower then pfMax r1 ⟨8, 10⟩ else r1
  let r3 := if pyInStr optionLower targetLower then pfMax r2 ⟨8, 10⟩ else r2
  let targetHasKey := keyWords.any (fun w => pyInStr w targetLower)
  let optionHasKey := keyWords.any (fun w => pyInStr w optionLower)
  if targetHasKey && optionHasKey then
    let r4 :=
      if pyInStr "prefer" targetLower && pyInStr "prefer" optionLower then pfMax r3 ⟨75, 100⟩
      else r3
    let r5 :=
      if pyInStr "decline" targetLower && pyInStr "decline" optionLower then pfMax r4 ⟨75, 100⟩
      else r4
    if pyInStr "other" targetLower && pyInStr "other" optionLower then pfMax r5 ⟨75, 100⟩
    else r5
  else r3

/-- The best-so-far scan (`if ratio > best_ratio`, strict) in source
order. -/
def fuzzyMatchGo (targetLower : String) (tg : Option (List String)) :
    List String → Option String × PyFloat → Option String × PyFloat
  | [], best => best
  | o :: rest, (bm, br) =>
    let r := fuzzyOptionRatio targetLower tg o
    if pfLt br r then fuzzyMatchGo targetLower tg rest (some o, r)
    else fuzzyMatchGo targetLower tg rest (bm, br)

/-- src/plan_executor.py lines 186-247 (`_fuzzy_match`): the target is
lowered, assigned the first semantic group containing (as substring) any
of its phrases, and scored against each candidate. -/
def fuzzyMatch (target : String) (options : List String) : Option String × PyFloat :=
  if options.isEmpty then (none, ⟨0, 1⟩)
  else
    let targetLower := pyLower target
    let tg := semanticGroups.find? (fun g => g.any (fun p => pyInStr p targetLower))
    fuzzyMatchGo targetLower tg options (none, ⟨0, 1⟩)

/-- The reference inputs of claim C6. -/
def c6Target : String := "prefer not to say"

/-- The reference candidate list of claim C6. -/
def c6Options : List String := ["Decline to self-identify", "Yes", "No"]

/- ===================================================================
   Execution loop — src/plan_executor.py, `execute_plan_on_page`
   (lines 1021-1116) and the action handlers it dispatches to.

   The live page is abstracted to its fixed set of interactable
   elements: `PageState` maps each concrete selector to the element it
   matches, described by the data the handlers read from it
   (`PageField`).  `fill` (lines 158-173) writes the requested value and
   `select_option` (lines 342-849) is modelled in full: the native
   branch selects by value attribute and falls back to selecting by
   label (line 381), committing the matched option value attribute; the
   custom branch short-circuits on a non-empty existing value
   (lines 388-402, via `selectEntryDecision`) and otherwise commits the
   choice produced by the selection-model / fuzzy-matching cascade.  The
   external `dropdown_selection_model.select_best_option` call is an
   arbitrary oracle (`Llm`) the executor is parameterised over; its
   remaining inputs (the probed field label, `user_info`) only feed that
   oracle and are absorbed into it.  Committing a choice is modelled as
   setting the field value to the chosen string: the source either
   fills the field with it (lines 585, 619, 754, 786, 835) or clicks
   the option node carrying that text and then verifies the committed
   value mutually contains the choice, rewriting it to the choice when
   it does not (lines 743-760).  The other handlers are modelled by
   their success condition and leave the value store unchanged; waits
   and delays are time-only no-ops.
   =================================================================== -/

/-- The executor-level view of a validated step (`PlaywrightStep` with the
string payloads the executor reads). -/
structure ExecStep where
  action : String
  selector : Option String
  value : Option String
deriving DecidableEq, Repr

/-- The element a selector resolves to, as the handlers observe it:
lowercased tag name (src/plan_executor.py line 372); the committed value
(the `input_value() or get_attribute("value") or text_content()` chain of
line 390, with the empty string for an absent or failed read); for a
native select, the option children as (value attribute, visible label)
pairs in document order (lines 374-382); the option texts extractable
from the opened custom widget (`_extract_dropdown_options`, lines 550
and 630); whether the opened widget exposes a search input, a combobox
field counting as its own search input (lines 468-545); whether a
clickable node with text equal to the requested value exists (line 636);
and whether the element is a writable text input or textarea, enabling
the fill conversion of lines 818-827. -/
structure PageField where
  tagName : String
  value : String
  selOptions : List (String × String)
  dropOptions : List String
  searchable : Bool
  textMatch : Bool
  textInput : Bool
deriving DecidableEq, Repr

/-- Selector-to-element association for the live interactable elements. -/
abbrev PageState := List (String × PageField)

/-- The `filled_fields` dict: selector keys to last-confirmed values, in
insertion order. -/
abbrev FilledFields := List (String × String)

def pageHas (p : PageState) (sel : String) : Bool :=
  p.any (fun kv => kv.fst == sel)

def pageRead (p : PageState) (sel : String) : Option PageField :=
  (p.find? (fun kv => kv.fst == sel)).map (fun kv => kv.snd)

/-- The committed value of the element a selector resolves to. -/
def pageVal (p : PageState) (sel : String) : Option String :=
  (pageRead p sel).map (fun f => f.value)

/-- Commit `v` as the value of the element at `sel`; every mutation the
handlers perform changes only the committed value. -/
def pageWrite (p : PageState) (sel v : String) : PageState :=
  p.map (fun kv => if kv.fst == sel then (kv.fst, { kv.snd with value := v }) else kv)

/-- Python dict upsert: update in place when the key exists (keeping its
position), else append. -/
def ffUpsert (ff : FilledFields) (k v : String) : FilledFields :=
  if ff.any (fun kv => kv.fst == k) then
    ff.map (fun kv => if kv.fst == k then (kv.fst, v) else kv)
  else ff ++ [(k, v)]

/-- Acceptable argument of Python `int()` (optional sign, digits), used by
`_handle_wait_for_timeout` (src/plan_executor.py line 893). -/
def isIntLiteral (s : String) : Bool :=
  match (pyStrip s).data with
  | [] => false
  | '-' :: rest => !rest.isEmpty && rest.all Char.isDigit
  | '+' :: rest => !rest.isEmpty && rest.all Char.isDigit
  | l => l.all Char.isDigit

/-- The two actions the loop treats as field writes (src/plan_executor.py
lines 1048 and 1098). -/
def writeAction (a : String) : Bool :=
  a == "fill" || a == "select_option"

/-- The external dropdown selection model
(`dropdown_selection_model.select_best_option`, src/plan_executor.py
lines 556-561 and 647-652): an arbitrary oracle from the step and the
extracted option texts to a chosen option (or none). -/
abbrev Llm := ExecStep → List String → Option String

/-- src/plan_executor.py lines 374-382: the native `<select>` branch.
`select_option(step.value)` matches an option by its value attribute and
commits that attribute; on failure, the fallback
`select_option(label=step.value)` of line 381 matches an option by its
visible label and commits that option value attribute; when neither
matches, the raised lookup error propagates out of the handler. -/
def nativeSelectRun (p : PageState) (sel v : String) (f : PageField) :
    Except String (PageState × Nat) :=
  match f.selOptions.find? (fun o => o.fst == v) with
  | some o => .ok (pageWrite p sel o.fst, 1)
  | none =>
    match f.selOptions.find? (fun o => o.snd == v) with
    | some o => .ok (pageWrite p sel o.fst, 1)
    | none => .error "select_option matched no option by value or label"

/-- src/plan_executor.py lines 646-671: the choice for a non-searchable
widget with extractable options — the selection-model pick when truthy,
else the `_fuzzy_match` cascade: below ratio 0.6 an "other" match at 0.7
or better replaces the result, which then stands only when truthy with
ratio at least 0.5. -/
def dropdownBestMatch (v : String) (opts : List String) (pick : Option String) :
    Option String :=
  if optTruthy pick then pick
  else
    match fuzzyMatch v opts with
    | (bm, r) =>
      match (if pfLt r ⟨6, 10⟩ then
               match fuzzyMatch "other" opts with
               | (om, orat) => if !(pfLt orat ⟨7, 10⟩) then (om, orat) else (bm, r)
             else (bm, r)) with
      | (bm2, r2) => if optTruthy bm2 && !(pfLt r2 ⟨5, 10⟩) then bm2 else none

/-- src/plan_executor.py lines 548-625: a widget with a search input (or
a combobox).  With extractable options, the selection-model pick is typed
and confirmed when it is one of them (lines 563-593); in every other case
the requested value is typed and confirmed (lines 594-625). -/
def searchableRun (p : PageState) (sel v : String) (f : PageField)
    (pick : Option String) : Except String (PageState × Nat) :=
  if f.dropOptions.isEmpty then .ok (pageWrite p sel v, 1)
  else
    match pick with
    | some m =>
      if !(m == "") && f.dropOptions.contains m then .ok (pageWrite p sel m, 1)
      else .ok (pageWrite p sel v, 1)
    | none => .ok (pageWrite p sel v, 1)

/-- src/plan_executor.py lines 404-849: the custom-dropdown flow after
the short-circuit declined and the widget was clicked open.  A searchable
widget always commits (lines 548-625).  Otherwise: with no extractable
options, a node with text equal to the requested value is clicked
(lines 632-644) or, failing that, a writable text field is filled with
the requested value (lines 816-845); with options, the chosen match is
clicked or typed and verified (lines 673-814), the text-field conversion
applies when no choice stands, and in the remaining case
`PlanExecutionError` is raised (line 849). -/
def customDropdownRun (p : PageState) (sel v : String) (f : PageField)
    (pick : Option String) : Except String (PageState × Nat) :=
  if f.searchable then searchableRun p sel v f pick
  else if f.dropOptions.isEmpty then
    if f.textMatch then .ok (pageWrite p sel v, 1)
    else if f.textInput then .ok (pageWrite p sel v, 1)
    else .error "Could not find or click option in dropdown"
  else
    match dropdownBestMatch v f.dropOptions pick with
    | some bm => .ok (pageWrite p sel bm, 1)
    | none =>
      if f.textInput then .ok (pageWrite p sel v, 1)
      else .error "Could not find or click option in dropdown"

/-- One dispatch through `ACTION_RUNNERS` (src/plan_executor.py
lines 1007-1018 and the `_handle_*` functions): the next page state and
the number of field-commit operations performed.  Handlers that resolve
a selector fail when it matches no element (`_ensure_locator`); `fill`
(lines 158-173) writes the requested value; `select_option`
(lines 342-849) enters through `selectEntryDecision` and proceeds by
`nativeSelectRun` or `customDropdownRun`, the selection model consulted
through the `llm` oracle; an unknown action is the `No runner
implemented` error (line 1088). -/
def runStep (llm : Llm) (st : ExecStep) (p : PageState) :
    Except String (PageState × Nat) :=
  match st.action with
  | "goto" =>
    if optTruthy st.value || optTruthy st.selector then .ok (p, 0)
    else .error "Goto step requires a target URL"
  | "click" =>
    if pageHas p (fixSelector (st.selector.getD "")) then .ok (p, 0)
    else .error "Selector did not match any nodes"
  | "fill" =>
    match st.value with
    | none => .error "Fill step requires a value"
    | some v =>
      if pageHas p (fixSelector (st.selector.getD "")) then
        .ok (pageWrite p (fixSelector (st.selector.getD "")) v, 1)
      else .error "Selector did not match any nodes"
  | "press" =>
    if pageHas p (fixSelector (st.selector.getD "")) then .ok (p, 0)
    else .error "Selector did not match any nodes"
  | "select_option" =>
    match st.value with
    | none => .error "select_option step requires a value"
    | some v =>
      match pageRead p (fixSelector (st.selector.getD "")) with
      | none => .error "Selector did not match any nodes"
      | some f =>
        match selectEntryDecision v
            ⟨f.tagName, if f.value == "" then none else some f.value⟩ with
        | .nativeSelect => nativeSelectRun p (fixSelector (st.selector.getD "")) v f
        | .shortCircuit _ => .ok (p, 0)
        | .openWidget =>
          customDropdownRun p (fixSelector (st.selector.getD "")) v f
            (llm st f.dropOptions)
  | "check" =>
    if pageHas p (fixSelector (st.selector.getD "")) then .ok (p, 0)
    else .error "Selector did not match any nodes"
  | "uncheck" =>
    if pageHas p (fixSelector (st.selector.getD "")) then .ok (p, 0)
    else .error "Selector did not match any nodes"
  | "wait_for_selector" =>
    if pageHas p (st.selector.getD "") then .ok (p, 0)
    else .error "wait_for_selector timed out"
  | "wait_for_timeout" =>
    match st.value with
    | none => .ok (p, 0)
    | some v =>
      if v == "" then .ok (p, 0)
      else if isIntLiteral v then .ok (p, 0)
      else .error "wait_for_timeout requires an integer value in ms"
  | "upload_file" =>
    if !(optTruthy st.value) then .error "upload_file step requires a value path"
    else if pageHas p (fixSelector (st.selector.getD "")) then .ok (p, 0)
    else .error "Could not find file input"
  | _ => .error "No runner implemented for action"

/-- src/plan_executor.py lines 1052-1060: value-level overlap between the
step value and an already-recorded value. -/
def valueOverlap (a b : String) : Bool :=
  pyLower a == pyLower b || pyInStr (pyLower a) (pyLower b) || pyInStr (pyLower b) (pyLower a)

/-- src/plan_executor.py lines 1053-1055: selector-level overlap (equality
or containment either way). -/
def selectorOverlap (a b : String) : Bool :=
  a == b || pyInStr a b || pyInStr b a

/-- The `for filled_selector, filled_value in filled_fields.items()` scan
of src/plan_executor.py lines 1051-1068: walks the recorded fields in
insertion order; an overlapping selector with both values truthy skips
only on value overlap (otherwise the scan continues), and an overlapping
selector with either value falsy skips unconditionally. -/
def alreadyFilledCheck (st : ExecStep) : FilledFields → Bool
  | [] => false
  | (fs, fv) :: rest =>
    if selectorOverlap (st.selector.getD "") fs then
      if optTruthy st.value && !(fv == "") then
        if valueOverlap (st.value.getD "") fv then true
        else alreadyFilledCheck st rest
      else true
    else alreadyFilledCheck st rest

/-- src/plan_executor.py lines 1047-1071: whether a step is dropped by the
pre-execution filter. -/
def stepFiltered (ff : FilledFields) (st : ExecStep) : Bool :=
  writeAction st.action && optTruthy st.selector && alreadyFilledCheck st ff

/-- src/plan_executor.py lines 1098-1114: after a write step, re-read the
field through `_ensure_locator(page, step.selector)` and record the
stripped non-empty value under the raw selector key; resolution or read
failures are swallowed. -/
def recordField (p : PageState) (ff : FilledFields) (sel : String) : FilledFields :=
  if pageHas p (fixSelector sel) then
    match pageVal p (fixSelector sel) with
    | some v =>
      if !(v == "") && !(pyStrip v == "") then ffUpsert ff sel (pyStrip v) else ff
    | none => ff
  else ff

/-- src/plan_executor.py lines 1076-1114: execute the filtered steps in
order, threading the page and the `filled_fields` dict and counting the
field commits performed. -/
def execSteps (llm : Llm) : List ExecStep → PageState → FilledFields →
    Except String (PageState × FilledFields × Nat)
  | [], p, ff => .ok (p, ff, 0)
  | st :: rest, p, ff =>
    match runStep llm st p with
    | .error e => .error e
    | .ok (p2, w) =>
      let ff2 :=
        if writeAction st.action && optTruthy st.selector then
          recordField p2 ff (st.selector.getD "")
        else ff
      match execSteps llm rest p2 ff2 with
      | .error e => .error e
      | .ok (p3, ff3, w3) => .ok (p3, ff3, w + w3)

/-- src/plan_executor.py lines 1021-1116 (`execute_plan_on_page`): filter
the steps against `filled_fields`, then execute the survivors. -/
def executePlanOnPage (llm : Llm) (steps : List ExecStep) (p : PageState)
    (ff : FilledFields) : Except String (PageState × FilledFields × Nat) :=
  execSteps llm (steps.filter (fun st => !(stepFiltered ff st))) p ff

/-- A plain writable text input currently holding `v`. -/
def txtField (v : String) : PageField :=
  { tagName := "input", value := v, selOptions := [], dropOptions := [],
    searchable := false, textMatch := false, textInput := true }

/-- A plain button: a click target with no value semantics. -/
def btnField : PageField :=
  { tagName := "button", value := "", selOptions := [], dropOptions := [],
    searchable := false, textMatch := false, textInput := false }

/-- A selection model that never returns a pick; the concrete plans below
never reach a custom dropdown, so the oracle is inert on them. -/
def noLlm : Llm := fun _ _ => none

/-- C1 counterexample plan: the same selector is filled twice with
non-overlapping values. -/
def c1Steps : List ExecStep :=
  [⟨"fill", some "#field", some "alpha"⟩, ⟨"fill", some "#field", some "beta"⟩]

/-- C1 counterexample page: one empty text field. -/
def c1Page : PageState := [("#field", txtField "")]

/-- C1 witness plan: one fill and one click on distinct selectors. -/
def c1wSteps : List ExecStep :=
  [⟨"fill", some "#name", some "Ada"⟩, ⟨"click", some "#go", none⟩]

/-- C1 witness page. -/
def c1wPage : PageState := [("#name", txtField ""), ("#go", btnField)]

/-- Page state after the first execution of the C1 witness plan. -/
def c1wPage1 : PageState := [("#name", txtField "Ada"), ("#go", btnField)]

/-- Recorded fields after the first execution of the C1 witness plan. -/
def c1wFF1 : FilledFields := [("#name", "Ada")]

/- ===================================================================
   DOM model — src/core/html_parser/parser.py.
   A parsed document is a list of top-level nodes; an element carries its
   tag name, attributes (in source order, first occurrence wins on
   lookup) and children.  BeautifulSoup navigation (`find_all` in
   document order, `parent` chains, `previous_siblings`) is recovered by
   annotating every element with its position path, its computed XPath
   and its ancestor chain.
   =================================================================== -/

mutual

inductive HNode where
  | elem (name : String) (attrs : List (String × String)) (children : HForest)
  | text (s : String)

inductive HForest where
  | nil
  | cons (head : HNode) (tail : HForest)

end

/-- A forest is a list of sibling nodes; the mutual shape (instead of
`List HNode`) keeps every recursion over the tree structural, so that all
definitions evaluate inside the kernel. -/
def HForest.toList : HForest → List HNode
  | .nil => []
  | .cons h t => h :: t.toList

/-- Build a forest from a sibling list (used to write documents down). -/
def hf : List HNode → HForest
  | [] => .nil
  | x :: xs => .cons x (hf xs)

mutual

/-- Structural equality of nodes, as BeautifulSoup `Tag.__eq__` (same
name, same attributes, same contents). -/
def hnodeBEq : HNode → HNode → Bool
  | .text s, .text t => s == t
  | .elem n a cs, .elem m b ds => n == m && a == b && hforestBEq cs ds
  | _, _ => false

def hforestBEq : HForest → HForest → Bool
  | .nil, .nil => true
  | .cons x xs, .cons y ys => hnodeBEq x y && hforestBEq xs ys
  | _, _ => false

end

instance : BEq HNode := ⟨hnodeBEq⟩

def nodeName : HNode → String
  | .elem n _ _ => n
  | .text _ => ""

def nodeAttrs : HNode → List (String × String)
  | .elem _ a _ => a
  | .text _ => []

/-- BeautifulSoup `tag.get(k)`: the attribute value, else `None`. -/
def attrGet (n : HNode) (k : String) : Option String :=
  ((nodeAttrs n).find? (fun kv => kv.fst == k)).map (fun kv => kv.snd)

/-- BeautifulSoup `tag.has_attr(k)`. -/
def hasAttr (n : HNode) (k : String) : Bool :=
  (nodeAttrs n).any (fun kv => kv.fst == k)

def isElemNamed (nm : String) (n : HNode) : Bool :=
  match n with
  | .elem x _ _ => x == nm
  | .text _ => false

/-- The strings of the text descendants of a forest, in document order
(BeautifulSoup `_all_strings`). -/
def forestTexts : HForest → List String
  | .nil => []
  | .cons (.text s) rest => s :: forestTexts rest
  | .cons (.elem _ _ cc) rest => forestTexts cc ++ forestTexts rest

/-- The strings of all text descendants of a node. -/
def nodeTexts : HNode → List String
  | .text s => [s]
  | .elem _ _ cs => forestTexts cs

/-- BeautifulSoup `el.get_text(strip=True)`: stripped text segments, empties dropped,
joined without separator. -/
def getText (el : HNode) : String :=
  String.join (((nodeTexts el).map pyStrip).filter (fun t => !(t == "")))

/-- src/core/html_parser/parser.py lines 11-16 (`get_text_clean`). -/
def getTextClean (el : HNode) : Option String :=
  let t := getText el
  if t == "" then none else some t

/-- All element descendants of a forest, in document order
(BeautifulSoup `find_all` order: each element before its own subtree). -/
def listDescendants : HForest → List HNode
  | .nil => []
  | .cons (.text _) rest => listDescendants rest
  | .cons (.elem nm a cc) rest =>
    .elem nm a cc :: (listDescendants cc ++ listDescendants rest)

/-- BeautifulSoup `tag.find(nm)`: the first element descendant with the given name. -/
def findFirstNamed (n : HNode) (nm : String) : Option HNode :=
  match n with
  | .elem _ _ cs => (listDescendants cs).find? (isElemNamed nm)
  | .text _ => none

/-- An element in context: the node itself, its child-index path from the
document root, its computed XPath and its ancestor chain (nearest
first, the document root excluded). -/
structure DomEntry where
  node : HNode
  path : List Nat
  xpath : String
  ancestors : List HNode

/-- Number of same-named element siblings
(`current.parent.find_all(current.name, recursive=False)` in
src/core/html_parser/parser.py line 30). -/
def sameNameCount (cs : List HNode) (nm : String) : Nat :=
  (cs.filter (isElemNamed nm)).length

/-- Position (1-based) of the child at list index `i` among its same-named
element siblings. -/
def sameNamePos (cs : List HNode) (nm : String) (i : Nat) : Nat :=
  ((cs.take i).filter (isElemNamed nm)).length + 1

/-- One XPath segment for the child at index `i` of sibling list `cs`
(src/core/html_parser/parser.py lines 24-38, `get_xpath`): the bare name
when it is the only same-named sibling, else `name[index]`. -/
def childSeg (cs : List HNode) (i : Nat) (nm : String) : String :=
  if sameNameCount cs nm == 1 then nm
  else nm ++ "[" ++ toString (sameNamePos cs nm i) ++ "]"

/-- Annotate the suffix of a sibling forest starting at index `i`, where
`cs` is the full sibling list (needed for XPath indexing), emitting
entries in document order. -/
def annotateFrom : String → List Nat → List HNode → List HNode → Nat → HForest → List DomEntry
  | _, _, _, _, _, .nil => []
  | pre, path, anc, cs, i, .cons (.text _) rest => annotateFrom pre path anc cs (i + 1) rest
  | pre, path, anc, cs, i, .cons (.elem nm a cc) rest =>
    let xp := pre ++ "/" ++ childSeg cs i nm
    ⟨.elem nm a cc, path ++ [i], xp, anc⟩ ::
      (annotateFrom xp (path ++ [i]) (.elem nm a cc :: anc) cc.toList 0 cc ++
        annotateFrom pre path anc cs (i + 1) rest)

/-- Every element of the document with its context, in document order. -/
def domEntries (doc : HForest) : List DomEntry :=
  annotateFrom "" [] [] doc.toList 0 doc

/-- src/core/html_parser/parser.py lines 54-74 (`is_hidden_element`):
`hidden` attribute, `input type=hidden`, or an inline style containing
`display:none` / `visibility:hidden` / `opacity:0` once spaces are
removed and case is folded. -/
def isHiddenElement (n : HNode) : Bool :=
  hasAttr n "hidden" ||
    (nodeName n == "input" && attrGet n "type" == some "hidden") ||
    (let sl := pyLower ⟨((attrGet n "style").getD "").data.filter (fun c => !(c == ' '))⟩
     pyInStr "display:none" sl || pyInStr "visibility:hidden" sl || pyInStr "opacity:0" sl)

/-- src/core/html_parser/parser.py lines 78-84 (`is_effectively_hidden`):
the element or any ancestor below the document root is hidden. -/
def effHidden (e : DomEntry) : Bool :=
  isHiddenElement e.node || e.ancestors.any isHiddenElement

/-- BeautifulSoup `soup.find_all(names)` with context. -/
def findAllEntries (doc : HForest) (names : List String) : List DomEntry :=
  (domEntries doc).filter (fun e => names.contains (nodeName e.node))

/-- Whether `e` is a strict descendant of `f` (position-path prefix). -/
def isUnder (f e : DomEntry) : Bool :=
  f.path.isPrefixOf e.path && !(f.path == e.path)

/-- BeautifulSoup `f.find_all(names)`: the named descendants of `f`, in document order,
with their global context. -/
def descEntries (doc : HForest) (f : DomEntry) (names : List String) : List DomEntry :=
  (findAllEntries doc names).filter (isUnder f)

/-- BeautifulSoup `el.find_parent("form") is not None`. -/
def hasParentForm (e : DomEntry) : Bool :=
  e.ancestors.any (fun a => nodeName a == "form")

/- ===================================================================
   Element extraction — src/core/html_parser/parser.py lines 91-105 and
   the collections built by `parse_html_semantics`.
   =================================================================== -/

structure OptionEntry where
  value : Option String
  text : Option String
deriving DecidableEq, Repr

structure ElementMeta where
  role : String
  tag : String
  id : Option String
  name : Option String
  etype : Option String
  classList : List String
  placeholder : Option String
  text : Option String
  xpath : String
  formId : Option String
  aria : List (String × String)
  label : Option String := none
  optionCount : Option Nat := none
  hasMoreOptions : Option Bool := none
  options : Option (List OptionEntry) := none
  multiple : Option Bool := none
  required : Option Bool := none
deriving DecidableEq, Repr

/-- The list `tag.get("class", [])` (BeautifulSoup splits the class attribute on
whitespace). -/
def classListOf (n : HNode) : List String :=
  match attrGet n "class" with
  | some s => (s.splitOn " ").filter (fun w => !(w == ""))
  | none => []

/-- src/core/html_parser/parser.py lines 19-21 (`extract_aria`). -/
def ariaAttrs (n : HNode) : List (String × String) :=
  (nodeAttrs n).filter (fun kv => pyStartsWith kv.fst "aria-")

/-- src/core/html_parser/parser.py lines 91-105 (`extract_element`). -/
def extractElement (e : DomEntry) (role : String) (formId : Option String) : ElementMeta :=
  { role := role, tag := nodeName e.node, id := attrGet e.node "id",
    name := attrGet e.node "name", etype := attrGet e.node "type",
    classList := classListOf e.node, placeholder := attrGet e.node "placeholder",
    text := getTextClean e.node, xpath := e.xpath, formId := formId,
    aria := ariaAttrs e.node }

/- Label mapping — src/core/html_parser/parser.py lines 112-171
   (`map_labels`).  The mapping is a dict from field id to the label text
   (which `get_text_clean` may return as `None`). -/

abbrev LabelMap := List (String × Option String)

def lmHas (m : LabelMap) (k : String) : Bool :=
  m.any (fun kv => kv.fst == k)

def lmGet (m : LabelMap) (k : String) : Option String :=
  match m.find? (fun kv => kv.fst == k) with
  | some kv => kv.snd
  | none => none

def lmSet (m : LabelMap) (k : String) (v : Option String) : LabelMap :=
  if m.any (fun kv => kv.fst == k) then
    m.map (fun kv => if kv.fst == k then (kv.fst, v) else kv)
  else m ++ [(k, v)]

/-- src/core/html_parser/parser.py lines 116-128: `label[for]` targets,
then ids of inputs/textareas wrapped by the label. -/
def mapLabelsPhase1 : List DomEntry → LabelMap → LabelMap
  | [], m => m
  | lbl :: rest, m =>
    let m1 :=
      match attrGet lbl.node "for" with
      | some t => if t == "" then m else lmSet m t (getTextClean lbl.node)
      | none => m
    let m2 :=
      match findFirstNamed lbl.node "input" with
      | some inp =>
        match attrGet inp "id" with
        | some i => if i == "" then m1 else lmSet m1 i (getTextClean lbl.node)
        | none => m1
      | none => m1
    let m3 :=
      match findFirstNamed lbl.node "textarea" with
      | some ta =>
        match attrGet ta "id" with
        | some i => if i == "" then m2 else lmSet m2 i (getTextClean lbl.node)
        | none => m2
      | none => m2
    mapLabelsPhase1 rest m3

/-- src/core/html_parser/parser.py lines 144-152: scan the children of the parent in order, stopping at the field (BeautifulSoup `==` is
structural); a label child with truthy text wins. -/
def labelBeforeField (fieldNode : HNode) : List HNode → Option String
  | [] => none
  | c :: rest =>
    if c == fieldNode then none
    else
      match c with
      | .elem nm _ _ =>
        if nm == "label" then
          match getTextClean c with
          | some t => some t
          | none => labelBeforeField fieldNode rest
        else labelBeforeField fieldNode rest
      | .text _ => labelBeforeField fieldNode rest

/-- src/core/html_parser/parser.py lines 155-169: scan the previous siblings of the parent (reverse document order, text siblings skipped); a
label sibling, or a label nested in a sibling, with truthy text wins. -/
def labelFromPrevSiblings : List HNode → Option String
  | [] => none
  | sib :: rest =>
    match sib with
    | .text _ => labelFromPrevSiblings rest
    | .elem nm a cc =>
      if nm == "label" then
        match getTextClean (.elem nm a cc) with
        | some t => some t
        | none => labelFromPrevSiblings rest
      else
        match findFirstNamed (.elem nm a cc) "label" with
        | some lb =>
          match getTextClean lb with
          | some t => some t
          | none => labelFromPrevSiblings rest
        | none => labelFromPrevSiblings rest

/-- The sibling list `parent.children` of a field entry (the document list when the
field is top-level). -/
def parentChildren (doc : HForest) (e : DomEntry) : List HNode :=
  match e.ancestors with
  | [] => doc.toList
  | p :: _ =>
    match p with
    | .elem _ _ cs => cs.toList
    | .text _ => []

/-- The previous siblings of the parent in reverse document order
(`parent.previous_siblings`). -/
def prevSiblingsOfParent (doc : HForest) (e : DomEntry) : List HNode :=
  match e.ancestors with
  | [] => []
  | _ :: grand =>
    let gchildren :=
      match grand with
      | [] => doc.toList
      | g :: _ =>
        match g with
        | .elem _ _ cs => cs.toList
        | .text _ => []
    let pidx := e.path.getD (e.path.length - 2) 0
    (gchildren.take pidx).reverse

/-- src/core/html_parser/parser.py lines 132-169: proximity-based label
resolution for fields with an id that phase 1 left unmapped. -/
def mapLabelsPhase2 (doc : HForest) : List DomEntry → LabelMap → LabelMap
  | [], m => m
  | f :: rest, m =>
    let m2 :=
      match attrGet f.node "id" with
      | none => m
      | some fid =>
        if fid == "" then m
        else if lmHas m fid then m
        else
          match labelBeforeField f.node (parentChildren doc f) with
          | some t => lmSet m fid (some t)
          | none =>
            match labelFromPrevSiblings (prevSiblingsOfParent doc f) with
            | some t => lmSet m fid (some t)
            | none => m
    mapLabelsPhase2 doc rest m2

/-- src/core/html_parser/parser.py lines 112-171 (`map_labels`). -/
def mapLabels (doc : HForest) : LabelMap :=
  mapLabelsPhase2 doc (findAllEntries doc ["input", "textarea"])
    (mapLabelsPhase1 (findAllEntries doc ["label"]) [])

/-- Attach the mapped label when the element id is a mapping key
(`if meta["id"] in label_map`). -/
def withLabel (lm : LabelMap) (meta : ElementMeta) : ElementMeta :=
  match meta.id with
  | some i => if lmHas lm i then { meta with label := lmGet lm i } else meta
  | none => meta

/- ===================================================================
   Form identity — src/core/html_parser/parser.py lines 41-51
   (`generate_stable_form_id`).
   =================================================================== -/

/-- Serialisation of a node list (`form.decode_contents()`).  Modelled
from the spec: the serialized subtree of the structural signature; the
exact formatting of the HTML library is abstracted to this renderer, which is
a function of the same data. -/
def renderList : HForest → String
  | .nil => ""
  | .cons (.text s) rest => s ++ renderList rest
  | .cons (.elem nm a cc) rest =>
    "<" ++ nm ++
      (a.foldl (fun acc kv => acc ++ " " ++ kv.fst ++ "=\"" ++ kv.snd ++ "\"") "") ++
      ">" ++ renderList cc ++ "</" ++ nm ++ ">" ++ renderList rest

/-- BeautifulSoup `form.decode_contents()`: the children serialised. -/
def decodeContents : HNode → String
  | .elem _ _ cs => renderList cs
  | .text s => s

def hexChar (n : Nat) : Char :=
  if n < 10 then Char.ofNat (48 + n) else Char.ofNat (87 + n)

def toHexAux : Nat → Nat → List Char
  | 0, _ => []
  | w + 1, v => toHexAux w (v / 16) ++ [hexChar (v % 16)]

/-- Modelled from the spec: the "deterministic hash of structural
signature" — `hashlib.sha256(...).hexdigest()[:12]` in the source, whose
implementation lives in the Python standard library, replaced by a
deterministic 12-hex-digit digest.  Every property used of it is that it
is a function of its input string. -/
def digest12 (s : String) : String :=
  ⟨toHexAux 12 ((s.data.foldl (fun acc c => (acc * 1099511628211 + c.toNat) % (2 ^ 48))
      1469598103934665603) % (2 ^ 48))⟩

/-- src/core/html_parser/parser.py lines 41-51 (`generate_stable_form_id`):
the digest of XPath + action + method + serialised subtree, prefixed with
`form_`.  The XPath is passed explicitly (the source recomputes it from
parent pointers). -/
def generateStableFormId (xp : String) (form : HNode) : String :=
  "form_" ++ digest12 (xp ++ ((attrGet form "action").getD "") ++
    ((attrGet form "method").getD "") ++ decodeContents form)

/-- The structural signature the form id is derived from (claim C9):
position path, action, method, serialised subtree. -/
def formSignature (xp : String) (form : HNode) : String × String × String × String :=
  (xp, (attrGet form "action").getD "", (attrGet form "method").getD "", decodeContents form)

/- ===================================================================
   Main extraction — src/core/html_parser/parser.py lines 178-371
   (`parse_html_semantics`).
   =================================================================== -/

structure FormData where
  formId : String
  xpath : String
  inputs : List ElementMeta
  buttons : List ElementMeta
  selects : List ElementMeta
  labels : List ElementMeta
deriving DecidableEq, Repr

structure Standalone where
  inputs : List ElementMeta
  buttons : List ElementMeta
  selects : List ElementMeta
  links : List ElementMeta
  clickables : List ElementMeta
deriving DecidableEq, Repr

structure SemanticsResult where
  forms : List FormData
  standalone : Standalone
deriving DecidableEq, Repr

/-- Visible (not effectively hidden) option descendants of a select, in
document order (src/core/html_parser/parser.py lines 254-257 and
329-332). -/
def visibleOptionEntries (doc : HForest) (s : DomEntry) : List DomEntry :=
  (descEntries doc s ["option"]).filter (fun o => !(effHidden o))

/-- One materialised option (src/core/html_parser/parser.py
lines 264-270): the `value` attribute when present, else the option
text. -/
def optionEntryOf (o : DomEntry) : OptionEntry :=
  { value := if hasAttr o.node "value" then attrGet o.node "value" else getTextClean o.node,
    text := getTextClean o.node }

/-- The select metadata built at src/core/html_parser/parser.py
lines 247-279 (forms) and 321-353 (standalone): true visible count,
overflow flag at 10, first-10 preview, nulled text. -/
def mkSelectMeta (doc : HForest) (formId : Option String) (s : DomEntry) : ElementMeta :=
  let base := extractElement s "select" formId
  let opts := visibleOptionEntries doc s
  { base with
      optionCount := some opts.length,
      hasMoreOptions := some (decide (opts.length > 10)),
      options := some ((opts.take 10).map optionEntryOf),
      text := none,
      multiple := some (hasAttr s.node "multiple"),
      required := some (hasAttr s.node "required") }

/-- The id `real_id if real_id else generate_stable_form_id(form)`
(src/core/html_parser/parser.py lines 200-201). -/
def formIdOf (f : DomEntry) : String :=
  match attrGet f.node "id" with
  | some i => if i == "" then generateStableFormId f.xpath f.node else i
  | none => generateStableFormId f.xpath f.node

/-- The collections of one form (src/core/html_parser/parser.py
lines 196-287). -/
def mkFormData (doc : HForest) (lm : LabelMap) (f : DomEntry) : FormData :=
  let fid := formIdOf f
  let inputs := ((descEntries doc f ["input"]).filter (fun e => !(effHidden e))).map
    (fun e => withLabel lm (extractElement e "input" (some fid)))
  let textareas := ((descEntries doc f ["textarea"]).filter (fun e => !(effHidden e))).map
    (fun e => withLabel lm { extractElement e "input" (some fid) with etype := some "textarea" })
  let buttons := (((descEntries doc f ["button", "input"]).filter (fun e => !(effHidden e))).filter
    (fun e => nodeName e.node == "button" ||
      (match attrGet e.node "type" with
       | some t => ["submit", "button", "reset"].contains t
       | none => false))).map (fun e => extractElement e "button" (some fid))
  let selects := ((descEntries doc f ["select"]).filter (fun e => !(effHidden e))).map
    (mkSelectMeta doc (some fid))
  let labels := ((descEntries doc f ["label"]).filter (fun e => !(effHidden e))).map
    (fun e => extractElement e "label" (some fid))
  { formId := fid, xpath := f.xpath, inputs := inputs ++ textareas,
    buttons := buttons, selects := selects, labels := labels }

/-- The value the Python variable `b` holds when the clickables loop at
src/core/html_parser/parser.py line 363 runs: the last element iterated
by `for b in soup.find_all("button")` (line 314), else the last element
iterated by `for b in form.find_all(["button", "input"])` (line 240)
across the visible forms, else unbound (`none`). -/
def lastBoundButton (doc : HForest) : Option DomEntry :=
  let visForms := (findAllEntries doc ["form"]).filter (fun f => !(effHidden f))
  let formLast := visForms.foldl (fun acc f =>
    match (descEntries doc f ["button", "input"]).getLast? with
    | some e => some e
    | none => acc) none
  match (findAllEntries doc ["button"]).getLast? with
  | some e => some e
  | none => formLast

/-- src/core/html_parser/parser.py lines 178-371 (`parse_html_semantics`).
The clickables loop (lines 362-369) tests `is_effectively_hidden(b)` on
the stale loop variable `b` instead of `el`: when no `b` was ever bound
the loop raises `NameError` on its first iteration; when the stale `b` is
hidden every element is skipped; otherwise no visibility filtering
happens for clickables. -/
def parseHtmlSemantics (doc : HForest) : Except String SemanticsResult :=
  let lm := mapLabels doc
  let visForms := (findAllEntries doc ["form"]).filter (fun f => !(effHidden f))
  let forms := visForms.map (mkFormData doc lm)
  let saInputs := (((findAllEntries doc ["input"]).filter (fun e => !(effHidden e))).filter
    (fun e => !(hasParentForm e))).map (fun e => withLabel lm (extractElement e "input" none))
  let saTextareas := (((findAllEntries doc ["textarea"]).filter (fun e => !(effHidden e))).filter
    (fun e => !(hasParentForm e))).map
    (fun e => withLabel lm { extractElement e "input" none with etype := some "textarea" })
  let saButtons := (((findAllEntries doc ["button"]).filter (fun e => !(effHidden e))).filter
    (fun e => !(hasParentForm e))).map (fun e => extractElement e "button" none)
  let saSelects := (((findAllEntries doc ["select"]).filter (fun e => !(effHidden e))).filter
    (fun e => !(hasParentForm e))).map (mkSelectMeta doc none)
  let saLinks := (((findAllEntries doc ["a"]).filter (fun e => !(effHidden e))).filter
    (fun e => !(hasParentForm e))).map (fun e => extractElement e "link" none)
  let allEls := domEntries doc
  match allEls with
  | [] =>
    .ok ⟨forms, ⟨saInputs ++ saTextareas, saButtons, saSelects, saLinks, []⟩⟩
  | _ =>
    match lastBoundButton doc with
    | none => .error "NameError: name b is not defined"
    | some bEntry =>
      let clickables :=
        if effHidden bEntry then []
        else
          (allEls.filter (fun el =>
            !(["button", "a"].contains (nodeName el.node)) &&
              (attrGet el.node "role" == some "button" ||
                attrGet el.node "tabindex" == some "0"))).map
            (fun e => extractElement e "clickable" none)
      .ok ⟨forms, ⟨saInputs ++ saTextareas, saButtons, saSelects, saLinks, clickables⟩⟩

/-- All select metadata the extraction emits (claim C8): the selects of
every form collection plus the standalone selects. -/
def allSelectMetas (res : SemanticsResult) : List ElementMeta :=
  (res.forms.map FormData.selects).flatten ++ res.standalone.selects

/-- Bool observer: did extraction return a result. -/
def semanticsIsOk : Except String SemanticsResult → Bool
  | .ok _ => true
  | .error _ => false

/-- The tags of the emitted standalone clickables. -/
def clickableTags : Except String SemanticsResult → List String
  | .ok res => res.standalone.clickables.map (fun m => m.tag)
  | .error _ => []

/-- The xpaths of the emitted standalone clickables. -/
def clickableXpaths : Except String SemanticsResult → List String
  | .ok res => res.standalone.clickables.map (fun m => m.xpath)
  | .error _ => []

/-- An all-empty element record (only used as a list default). -/
def emptyMeta : ElementMeta :=
  { role := "", tag := "", id := none, name := none, etype := none, classList := [],
    placeholder := none, text := none, xpath := "", formId := none, aria := [] }

/-- C2 failing input: a visible button, then a `hidden` container holding
a `role=button` clickable. -/
def docC2 : HForest :=
  hf [.elem "button" [] (hf [.text "ok"]),
      .elem "div" [("hidden", "")]
        (hf [.elem "span" [("role", "button")] (hf [.text "x"])])]

/-- C4 failing input: a document with a tag but no button or input
anywhere. -/
def docC4 : HForest :=
  hf [.elem "p" [] (hf [.text "hi"])]

/-- C8 witness document: a standalone select with twelve options (plus a
button, so that extraction does not trip the stale-variable NameError of
the clickables loop). -/
def docC8 : HForest :=
  hf [.elem "select" [("id", "country")]
        (hf ((List.range 12).map (fun i =>
          .elem "option" [("value", toString i)] (hf [.text ("country " ++ toString i)])))),
      .elem "button" [] (hf [.text "go"])]

/-- The extraction result on the C8 witness document. -/
def c8Res : SemanticsResult :=
  match parseHtmlSemantics docC8 with
  | .ok r => r
  | .error _ => ⟨[], ⟨[], [], [], [], []⟩⟩

/-- The single select record extracted from the C8 witness document. -/
def c8Meta : ElementMeta := (allSelectMetas c8Res).headD emptyMeta

/-- C9 witness: two forms with the same signature components, differing in
an attribute outside the signature. -/
def formC9a : HNode :=
  .elem "form" [("action", "/apply"), ("method", "post"), ("class", "light")]
    (hf [.elem "input" [("id", "n")] .nil])

/-- Same signature as `formC9a`, different `class` attribute. -/
def formC9b : HNode :=
  .elem "form" [("action", "/apply"), ("method", "post"), ("class", "dark")]
    (hf [.elem "input" [("id", "n")] .nil])

/- ===================================================================
   THEOREMS
   Helper lemmas first, then one theorem per claim (with witnesses and
   counterexamples as the claims need them).
   =================================================================== -/

theorem listIsSub_nil (h : List Char) : listIsSub [] h = true := by
  induction h with
  | nil => rfl
  | cons c rest ih => simp [listIsSub, List.isPrefixOf]

theorem listIsSub_iff_mid (n h : List Char) : listIsSub n h = true ↔ n <:+: h := by
  induction h with
  | nil =>
    cases n with
    | nil => simp [listIsSub]
    | cons c cs => simp [listIsSub]
  | cons c rest ih =>
    constructor
    · intro hs
      rcases Bool.or_eq_true_iff.mp hs with hp | hsub
      · exact (List.isPrefixOf_iff_prefix.mp hp).isInfix
      · exact (ih.mp hsub).trans (List.suffix_cons c rest).isInfix
    · intro hi
      rcases List.infix_cons_iff.mp hi with hp | hs
      · exact Bool.or_eq_true_iff.mpr (Or.inl (List.isPrefixOf_iff_prefix.mpr hp))
      · exact Bool.or_eq_true_iff.mpr (Or.inr (ih.mpr hs))

theorem pyInStr_of_mid (a b : String) (h : a.data <:+: b.data) : pyInStr a b = true :=
  (listIsSub_iff_mid a.data b.data).mpr h

theorem pyStrip_data_mid (s : String) : (pyStrip s).data <:+: s.data := by
  show (((s.data.dropWhile Char.isWhitespace).reverse.dropWhile Char.isWhitespace).reverse) <:+: s.data
  have h1 : s.data.dropWhile Char.isWhitespace <:+ s.data := List.dropWhile_suffix _
  have h3 : (s.data.dropWhile Char.isWhitespace).reverse.dropWhile Char.isWhitespace <:+
      (s.data.dropWhile Char.isWhitespace).reverse := List.dropWhile_suffix _
  have h2 : ((s.data.dropWhile Char.isWhitespace).reverse.dropWhile Char.isWhitespace).reverse <+:
      s.data.dropWhile Char.isWhitespace :=
    List.reverse_suffix.mp (by simpa using h3)
  exact h2.isInfix.trans h1.isInfix

theorem pyLower_data (s : String) : (pyLower s).data = s.data.map lowerChar := rfl

theorem pyLower_strip_mid (s : String) :
    (pyLower (pyStrip s)).data <:+: (pyLower s).data := by
  rw [pyLower_data, pyLower_data]
  exact (pyStrip_data_mid s).map lowerChar

theorem string_ne_empty_of_data_ne (s : String) (h : s.data ≠ []) : s ≠ "" := by
  intro hs
  exact h (by simp [hs])

theorem pyLower_eq_empty_iff (s : String) : pyLower s = "" ↔ s = "" := by
  constructor
  · intro h
    have hd : (pyLower s).data = [] := by simp [h]
    rw [pyLower_data] at hd
    cases hs : s.data with
    | nil => exact String.ext (by simp [hs])
    | cons c cs => rw [hs] at hd; simp at hd
  · intro h; rw [h]; rfl

theorem string_length_pos_of_ne_empty (s : String) (h : s ≠ "") : 0 < s.length := by
  cases hs : s.data with
  | nil => exact absurd (String.ext (by simp [hs])) h
  | cons c cs =>
    show 0 < s.data.length
    rw [hs]; simp

/-- Shared helper for C5/C10: the custom-dropdown entry of
`_handle_select` short-circuits on any non-empty read value, because the
final disjunct of its condition accepts every non-empty stripped value
(and an all-whitespace value still satisfies the empty-substring
containment disjunct). -/
theorem selectEntry_shortCircuit_of_nonempty (v ev tag : String)
    (htag : tag ≠ "select") (hev : ev ≠ "") :
    selectEntryDecision v ⟨tag, some ev⟩ = .shortCircuit (pyStrip ev) ∧
      selectEntryEffects v ⟨tag, some ev⟩ = [] := by
  have htb : (tag == "select") = false := by simp [htag]
  have hevb : (ev == "") = false := by simp [hev]
  have hcond : (pyLower (pyStrip ev) == pyLower v
      || pyInStr (pyLower v) (pyLower (pyStrip ev))
      || pyInStr (pyLower (pyStrip ev)) (pyLower v)
      || (!(pyStrip ev == "") && decide ((pyStrip ev).length > 0))) = true := by
    by_cases hs : pyStrip ev = ""
    · have : pyInStr (pyLower (pyStrip ev)) (pyLower v) = true := by
        rw [hs]
        exact listIsSub_nil _
      simp [this]
    · have h1 : (!(pyStrip ev == "")) = true := by simp [hs]
      have h2 : decide ((pyStrip ev).length > 0) = true :=
        decide_eq_true (string_length_pos_of_ne_empty _ hs)
      simp [h1, h2]
  have hdec : selectEntryDecision v ⟨tag, some ev⟩ = .shortCircuit (pyStrip ev) := by
    unfold selectEntryDecision
    simp only [htb, Bool.false_eq_true, if_false, hevb, hcond, if_true]
  exact ⟨hdec, by unfold selectEntryEffects; rw [hdec]⟩

/-- C5 (confirmed): for a `select_option` step on a non-native dropdown
whose field already holds exactly the requested text (case-insensitive
equality), `_handle_select` returns at its short-circuit (`Satisfied`)
without clicking the widget open and without any further step: the
decision is `shortCircuit` and the performed page operations are none. -/
theorem dropdown_short_circuit_exact_match (v ev tag : String)
    (htag : tag ≠ "select") (hv : v ≠ "") (heq : pyLower ev = pyLower v) :
    selectEntryDecision v ⟨tag, some ev⟩ = .shortCircuit (pyStrip ev) ∧
      selectEntryEffects v ⟨tag, some ev⟩ = [] := by
  have hev : ev ≠ "" := by
    intro h
    rw [h] at heq
    exact hv ((pyLower_eq_empty_iff v).mp heq.symm)
  exact selectEntry_shortCircuit_of_nonempty v ev tag htag hev

/-- C5 witness: a concrete exact (case-insensitive) match. -/
theorem dropdown_short_circuit_exact_match_witness :
    selectEntryDecision "Yes" ⟨"div", some "yes"⟩ = .shortCircuit "yes" ∧
      selectEntryEffects "Yes" ⟨"div", some "yes"⟩ = [] :=
  dropdown_short_circuit_exact_match "Yes" "yes" "div" (by decide) (by decide) (by decide)

/-- C10 (confirmed): for a `select_option` step on a non-native dropdown,
any non-empty current value — related to the requested value or not —
makes `_handle_select` return immediately: no click, no write, no raised
error (the decision is the silent `shortCircuit`, whose effect list is
empty, so the requested value is never written). -/
theorem dropdown_nonempty_short_circuit (v ev tag : String)
    (htag : tag ≠ "select") (hev : ev ≠ "") :
    selectEntryDecision v ⟨tag, some ev⟩ = .shortCircuit (pyStrip ev) ∧
      selectEntryEffects v ⟨tag, some ev⟩ = [] :=
  selectEntry_shortCircuit_of_nonempty v ev tag htag hev

/-- C10 witness: the current value `"zzz"` is unrelated to the requested
`"United States"`, yet the handler short-circuits. -/
theorem dropdown_nonempty_short_circuit_witness :
    selectEntryDecision "United States" ⟨"input", some "zzz"⟩ = .shortCircuit "zzz" ∧
      selectEntryEffects "United States" ⟨"input", some "zzz"⟩ = [] :=
  dropdown_nonempty_short_circuit "United States" "zzz" "input" (by decide) (by decide)

/-- C7 counterexample: `_handle_fill` resolves its selector with the
default `allow_multiple=False`, so on a selector matching two nodes the
locator is returned unnarrowed (`usedFirst = false`) and no
resolution-ambiguity warning is attached (`warned = false`) — the claimed
first-match-plus-warning behaviour does not hold for `fill`. -/
theorem fill_multimatch_not_narrowed :
    c7Counts "input.x" = 2 ∧
      ensureLocator c7Counts "input.x" (handlerAllowsMultiple "fill") =
        .ok ⟨"input.x", false, false⟩ := by
  exact ⟨rfl, rfl⟩

/-- C7 (corrected): on a selector matching more than one node, exactly the
handlers that pass `allow_multiple=True` (`click`, `press`, `check`) use
the first match and warn; `fill`, `select_option`, `uncheck` and
`upload_file` resolve the multi-match unnarrowed and silently. -/
theorem ensure_locator_allow_multiple_amended (count : String → Nat) (sel : String)
    (h : count (fixSelector sel) > 1) :
    (∀ a ∈ (["click", "press", "check"] : List String),
      ensureLocator count sel (handlerAllowsMultiple a) = .ok ⟨fixSelector sel, true, true⟩) ∧
    (∀ a ∈ (["fill", "select_option", "uncheck", "upload_file"] : List String),
      ensureLocator count sel (handlerAllowsMultiple a) = .ok ⟨fixSelector sel, false, false⟩) := by
  have h0 : (count (fixSelector sel) == 0) = false := by
    simp only [beq_eq_false_iff_ne, ne_eq]
    omega
  have h1 : decide (count (fixSelector sel) > 1) = true := decide_eq_true h
  constructor
  · intro a ha
    simp only [List.mem_cons, List.not_mem_nil, or_false] at ha
    rcases ha with rfl | rfl | rfl <;>
      simp [ensureLocator, handlerAllowsMultiple, h0, h1]
  · intro a ha
    simp only [List.mem_cons, List.not_mem_nil, or_false] at ha
    rcases ha with rfl | rfl | rfl | rfl <;>
      simp [ensureLocator, handlerAllowsMultiple, h0, h1]

/-- C7 witness: the amended behaviour at the concrete two-match page. -/
theorem ensure_locator_allow_multiple_amended_witness :
    (∀ a ∈ (["click", "press", "check"] : List String),
      ensureLocator c7Counts "input.x" (handlerAllowsMultiple a) =
        .ok ⟨fixSelector "input.x", true, true⟩) ∧
    (∀ a ∈ (["fill", "select_option", "uncheck", "upload_file"] : List String),
      ensureLocator c7Counts "input.x" (handlerAllowsMultiple a) =
        .ok ⟨fixSelector "input.x", false, false⟩) :=
  ensure_locator_allow_multiple_amended c7Counts "input.x" (by decide)

/-- C9 (confirmed): `generate_stable_form_id` is a function of the
structural signature (position path, action, method, serialised subtree)
alone, so two forms — in particular the same unchanged markup extracted
twice — with equal signatures receive the same generated id. -/
theorem form_id_stable (xp1 xp2 : String) (f g : HNode)
    (h : formSignature xp1 f = formSignature xp2 g) :
    generateStableFormId xp1 f = generateStableFormId xp2 g := by
  unfold formSignature at h
  injection h with h1 h
  injection h with h2 h
  injection h with h3 h4
  unfold generateStableFormId
  rw [h1, h2, h3, h4]

/-- C9 witness: two forms equal on the signature but differing in an
attribute outside it (`class`) receive the same id. -/
theorem form_id_stable_witness :
    formSignature "/html/body/form" formC9a = formSignature "/html/body/form" formC9b ∧
      generateStableFormId "/html/body/form" formC9a =
        generateStableFormId "/html/body/form" formC9b :=
  ⟨by rfl, form_id_stable "/html/body/form" "/html/body/form" formC9a formC9b (by rfl)⟩

/-- C2 (code bug): the clickables loop of `parse_html_semantics` tests
`is_effectively_hidden(b)` — the stale variable of the buttons loops —
instead of `el`, so a `role=button` element under a `hidden` ancestor is
still emitted: on `docC2` extraction succeeds and emits the span at
`/div/span` as a clickable although that entry is effectively hidden. -/
theorem clickable_hidden_ancestor_emitted :
    semanticsIsOk (parseHtmlSemantics docC2) = true ∧
      clickableTags (parseHtmlSemantics docC2) = ["span"] ∧
      clickableXpaths (parseHtmlSemantics docC2) = ["/div/span"] ∧
      ((domEntries docC2).filter (fun e => nodeName e.node == "span")).map effHidden = [true] := by
  decide

/-- C4 (code bug): on a parseable document with an available root but no
button or input anywhere (`<p>hi</p>`), the clickables loop evaluates the
never-bound variable `b` and extraction raises `NameError` instead of
returning a result. -/
theorem parse_html_raises_nameerror :
    parseHtmlSemantics docC4 = .error "NameError: name b is not defined" ∧
      (domEntries docC4).length = 1 := by
  exact ⟨rfl, rfl⟩

/-- C6 (code bug): `_fuzzy_match("prefer not to say",
["Decline to self-identify", "Yes", "No"])` returns `("No", 0.8)` — not
the first candidate with a score of at least 0.85.  The semantic group
misspells the phrase ("decline to self verify"), so no 0.85 boost fires
for the first candidate, while the containment rule boosts "No" to 0.8
because "no" occurs inside "prefer not to say". -/
theorem fuzzy_match_prefer_not_to_say_returns_no :
    fuzzyMatch c6Target c6Options = (some "No", ⟨8, 10⟩) ∧
      pfLt ⟨8, 10⟩ ⟨85, 100⟩ = true := by
  decide

/-- Inversion of a successful extraction: the form list and the standalone
select list are exactly the expressions `parse_html_semantics` builds. -/
theorem parseHtmlSemantics_ok_parts (doc : HForest) (res : SemanticsResult)
    (h : parseHtmlSemantics doc = .ok res) :
    res.forms = ((findAllEntries doc ["form"]).filter (fun f => !(effHidden f))).map
        (mkFormData doc (mapLabels doc)) ∧
      res.standalone.selects =
        (((findAllEntries doc ["select"]).filter (fun e => !(effHidden e))).filter
          (fun e => !(hasParentForm e))).map (mkSelectMeta doc none) := by
  unfold parseHtmlSemantics at h
  try dsimp only at h
  cases hd : domEntries doc with
  | nil =>
    rw [hd] at h
    try dsimp only at h
    injection h with h2
    subst h2
    exact ⟨rfl, rfl⟩
  | cons e es =>
    rw [hd] at h
    try dsimp only at h
    cases hb : lastBoundButton doc with
    | none =>
      rw [hb] at h
      simp at h
    | some bE =>
      rw [hb] at h
      try dsimp only at h
      injection h with h2
      subst h2
      exact ⟨rfl, rfl⟩

/-- C8 (confirmed): every select record the extraction emits (in a form
collection or standalone) comes from a visible select of the document and
carries: `option_count` equal to the true visible-option count,
`has_more_options` exactly when that count exceeds 10, a materialized
options list that is the first `min(10, n)` visible options in document
order, and a nulled textual-content field. -/
theorem select_option_capping (doc : HForest) (res : SemanticsResult) (m : ElementMeta)
    (hres : parseHtmlSemantics doc = .ok res)
    (hm : m ∈ allSelectMetas res) :
    ∃ s : DomEntry, s ∈ findAllEntries doc ["select"] ∧ effHidden s = false ∧
      m.optionCount = some (visibleOptionEntries doc s).length ∧
      m.hasMoreOptions = some (decide ((visibleOptionEntries doc s).length > 10)) ∧
      m.options = some (((visibleOptionEntries doc s).take 10).map optionEntryOf) ∧
      (m.options.getD []).length = min 10 (visibleOptionEntries doc s).length ∧
      m.text = none := by
  obtain ⟨hforms, hsa⟩ := parseHtmlSemantics_ok_parts doc res hres
  unfold allSelectMetas at hm
  rw [List.mem_append] at hm
  rcases hm with hm | hm
  · rw [hforms, List.mem_flatten] at hm
    obtain ⟨sl, hsl, hmsl⟩ := hm
    rw [List.mem_map] at hsl
    obtain ⟨fd, hfd, rfl⟩ := hsl
    rw [List.mem_map] at hfd
    obtain ⟨f, hf', rfl⟩ := hfd
    simp only [mkFormData, List.mem_map] at hmsl
    obtain ⟨s, hs, rfl⟩ := hmsl
    rw [List.mem_filter] at hs
    obtain ⟨hs1, hs2⟩ := hs
    refine ⟨s, ?_, ?_, rfl, rfl, rfl, ?_, rfl⟩
    · unfold descEntries at hs1
      exact (List.mem_filter.mp hs1).1
    · simpa using hs2
    · simp [mkSelectMeta]
  · rw [hsa, List.mem_map] at hm
    obtain ⟨s, hs, rfl⟩ := hm
    rw [List.mem_filter] at hs
    obtain ⟨hs1, _⟩ := hs
    rw [List.mem_filter] at hs1
    obtain ⟨hs1, hs2⟩ := hs1
    refine ⟨s, hs1, ?_, rfl, rfl, rfl, ?_, rfl⟩
    · simpa using hs2
    · simp [mkSelectMeta]

/-- C8 witness: the concrete twelve-option select of `docC8`. -/
theorem select_option_capping_witness :
    ∃ s : DomEntry, s ∈ findAllEntries docC8 ["select"] ∧ effHidden s = false ∧
      c8Meta.optionCount = some (visibleOptionEntries docC8 s).length ∧
      c8Meta.hasMoreOptions = some (decide ((visibleOptionEntries docC8 s).length > 10)) ∧
      c8Meta.options = some (((visibleOptionEntries docC8 s).take 10).map optionEntryOf) ∧
      (c8Meta.options.getD []).length = min 10 (visibleOptionEntries docC8 s).length ∧
      c8Meta.text = none :=
  select_option_capping docC8 c8Res c8Meta (by rfl) (by decide)

/-- One step validates exactly when the claims per-step clauses all
hold. -/
theorem parseStepJ_ok_iff (st : JValue) :
    (match parseStepJ st with | .ok _ => true | .error _ => false) = !(claimStepBad st) := by
  cases st with
  | jobj sm =>
    cases ha : jget sm "action" with
    | jstr a =>
      by_cases h1 : a ∈ playwrightActions
      · by_cases h2 : a = "wait_for_timeout"
        · simp [parseStepJ, claimStepBad, ha, h1, h2, playwrightActions]
        · by_cases h3 : jtruthy (jget sm "selector") = true
          · simp [parseStepJ, claimStepBad, ha, h1, h2, h3]
          · simp only [Bool.not_eq_true] at h3
            simp [parseStepJ, claimStepBad, ha, h1, h2, h3]
      · simp [parseStepJ, claimStepBad, ha, h1]
    | jnull => simp [parseStepJ, claimStepBad, ha]
    | jbool b => simp [parseStepJ, claimStepBad, ha]
    | jnum n => simp [parseStepJ, claimStepBad, ha]
    | jarr xs => simp [parseStepJ, claimStepBad, ha]
    | jobj fs => simp [parseStepJ, claimStepBad, ha]
  | jnull => simp [parseStepJ, claimStepBad]
  | jbool b => simp [parseStepJ, claimStepBad]
  | jnum n => simp [parseStepJ, claimStepBad]
  | jstr s => simp [parseStepJ, claimStepBad]
  | jarr xs => simp [parseStepJ, claimStepBad]

/-- The step loop succeeds exactly when no step is bad. -/
theorem parseStepsOkB_eq (l : List JValue) :
    parseStepsOkB l = !(l.any claimStepBad) := by
  induction l with
  | nil => rfl
  | cons st rest ih =>
    have h := parseStepJ_ok_iff st
    have ih2 := ih
    unfold parseStepsOkB at ih2 ⊢
    unfold parseStepsJ
    cases hps : parseStepJ st with
    | error e =>
      rw [hps] at h
      simp only [List.any_cons, Bool.not_or]
      simp at h
      simp [h]
    | ok s =>
      rw [hps] at h
      simp at h
      cases hr : parseStepsJ rest with
      | error e =>
        rw [hr] at ih2
        simp only [List.any_cons, Bool.not_or]
        simp at ih2
        simp [h, ih2]
      | ok ss =>
        rw [hr] at ih2
        simp only [List.any_cons, Bool.not_or]
        simp at ih2
        simp [h]
        exact ih2

/-- The normalisation `x or []` makes the isinstance test see a sequence
exactly when the raw field is not truthy-and-non-sequence. -/
theorem norm_isArr (v : JValue) :
    isArrB (if jtruthy v then v else .jarr []) = !(jtruthy v && !(isArrB v)) := by
  cases v with
  | jnull => simp [jtruthy, isArrB]
  | jbool b => cases b <;> simp [jtruthy, isArrB]
  | jnum n =>
    by_cases h : (n == 0) = true
    · simp [jtruthy, isArrB, h]
    · simp only [jtruthy, isArrB]
      simp only [Bool.not_eq_true] at h
      simp [h]
  | jstr s =>
    by_cases h : (s == "") = true
    · simp [jtruthy, isArrB, h]
    · simp only [jtruthy, isArrB]
      simp only [Bool.not_eq_true] at h
      simp [h]
  | jarr xs => by_cases h : xs.isEmpty = true <;> simp [jtruthy, isArrB, h]
  | jobj fs => by_cases h : fs.isEmpty = true <;> simp [jtruthy, isArrB, h]

/-- C3 counterexample: a payload with non-empty summary, valid status, a
sequence steps field and non-sequence truthy assumptions — none of the
claims enumerated conditions — still raises `ActionParserError`. -/
theorem parse_plan_rejects_nonlist_assumptions :
    parseOutcomeIsErr (parsePlaywrightPlan c3Payload) = true ∧
      claimRejectsOriginal ((planDataOf c3Payload).getD []) = false ∧
      (planDataOf c3Payload).isSome = true := by
  decide

/-- Bool inversions used to move between the normalised isinstance test
and the claims raw-field clauses. -/
theorem eq_false_of_true_eq_not (x : Bool) (h : true = !x) : x = false := by
  cases x <;> simp_all

theorem eq_true_of_false_eq_not (x : Bool) (h : false = !x) : x = true := by
  cases x <;> simp_all

/-- The validation body raises exactly on the amended condition. -/
theorem parsePlanObject_err_eq (m : List (String × JValue)) :
    (match parsePlanObject m with | .ok _ => false | .error _ => true) = claimRejects m := by
  unfold parsePlanObject claimRejects claimSummaryEmpty claimStatusBad claimAssumptionsNotSeq
    claimStepsNotSeq claimPendingEmpty effectiveSteps
  cases h1 : (pyStrip (if jtruthy (jget m "summary") then jstrOf (jget m "summary") else "") == "") with
  | true => simp [h1]
  | false =>
    simp only [h1, Bool.false_eq_true, if_false, Bool.false_or]
    cases h2 : (["pending", "confirmed", "blocked", "error"].contains
        (pyLower (if jtruthy (jget m "status") then jstrOf (jget m "status") else "pending"))) with
    | false => simp [h2]
    | true =>
      simp only [h2, Bool.not_true, Bool.false_eq_true, if_false, Bool.false_or]
      have hA := norm_isArr (jget m "assumptions")
      have hS := norm_isArr (jget m "steps")
      cases hna : (if jtruthy (jget m "assumptions") then jget m "assumptions"
          else JValue.jarr []) with
      | jarr alist =>
        rw [hna, show isArrB (JValue.jarr alist) = true from rfl] at hA
        have hA4 := eq_false_of_true_eq_not _ hA
        cases hns : (if jtruthy (jget m "steps") then jget m "steps" else JValue.jarr []) with
        | jarr slist =>
          rw [hns, show isArrB (JValue.jarr slist) = true from rfl] at hS
          have hS4 := eq_false_of_true_eq_not _ hS
          simp only [hA4, hS4, Bool.false_or, asArr]
          try dsimp only
          cases h5 : (slist.isEmpty && (pyLower (if jtruthy (jget m "status")
              then jstrOf (jget m "status") else "pending") == "pending")) with
          | true => simp [h5]
          | false =>
            simp only [h5, Bool.false_eq_true, if_false, Bool.false_or]
            have hsteps := parseStepsOkB_eq slist
            unfold parseStepsOkB at hsteps
            cases hps : parseStepsJ slist with
            | error e =>
              rw [hps] at hsteps
              try dsimp only at hsteps
              have := eq_true_of_false_eq_not _ hsteps
              simp [hps, this]
            | ok steps =>
              rw [hps] at hsteps
              try dsimp only at hsteps
              have := eq_false_of_true_eq_not _ hsteps
              simp [hps, this]
        | jnull =>
          rw [hns, show isArrB JValue.jnull = false from rfl] at hS
          have hS4 := eq_true_of_false_eq_not _ hS
          simp [hS4]
        | jbool b =>
          rw [hns, show isArrB (JValue.jbool b) = false from rfl] at hS
          have hS4 := eq_true_of_false_eq_not _ hS
          simp [hS4]
        | jnum n =>
          rw [hns, show isArrB (JValue.jnum n) = false from rfl] at hS
          have hS4 := eq_true_of_false_eq_not _ hS
          simp [hS4]
        | jstr sx =>
          rw [hns, show isArrB (JValue.jstr sx) = false from rfl] at hS
          have hS4 := eq_true_of_false_eq_not _ hS
          simp [hS4]
        | jobj fs =>
          rw [hns, show isArrB (JValue.jobj fs) = false from rfl] at hS
          have hS4 := eq_true_of_false_eq_not _ hS
          simp [hS4]
      | jnull =>
        rw [hna, show isArrB JValue.jnull = false from rfl] at hA
        have hA4 := eq_true_of_false_eq_not _ hA
        simp [hA4]
      | jbool b =>
        rw [hna, show isArrB (JValue.jbool b) = false from rfl] at hA
        have hA4 := eq_true_of_false_eq_not _ hA
        simp [hA4]
      | jnum n =>
        rw [hna, show isArrB (JValue.jnum n) = false from rfl] at hA
        have hA4 := eq_true_of_false_eq_not _ hA
        simp [hA4]
      | jstr sx =>
        rw [hna, show isArrB (JValue.jstr sx) = false from rfl] at hA
        have hA4 := eq_true_of_false_eq_not _ hA
        simp [hA4]
      | jobj fs =>
        rw [hna, show isArrB (JValue.jobj fs) = false from rfl] at hA
        have hA4 := eq_true_of_false_eq_not _ hA
        simp [hA4]

/-- C3 (corrected): over every decoded payload whose effective plan object
exists (the payload is an object, unwrapping a truthy `"plan"` key that is
itself an object — otherwise the code dies with an `AttributeError`, not
a `PlanParseError`), the parser raises `ActionParserError` exactly on the
amended condition `claimRejects`, and returns a validated plan
otherwise. -/
theorem parse_plan_raises_iff_amended (payload : JValue) (m : List (String × JValue))
    (h : planDataOf payload = some m) :
    (match parsePlaywrightPlan payload with
     | .ok _ => claimRejects m = false
     | .err _ => claimRejects m = true
     | .pyerr => False) := by
  have heq := parsePlanObject_err_eq m
  cases payload with
  | jobj pf =>
    unfold planDataOf at h
    unfold parsePlaywrightPlan
    try dsimp only at h ⊢
    cases hpd : (if jtruthy (jget pf "plan") then jget pf "plan" else JValue.jobj pf) with
    | jobj mm =>
      rw [hpd] at h
      try dsimp only at h
      injection h with h
      subst h
      try dsimp only
      cases hp : parsePlanObject mm with
      | ok p =>
        rw [hp] at heq
        try dsimp only at heq ⊢
        exact heq.symm
      | error e =>
        rw [hp] at heq
        try dsimp only at heq ⊢
        exact heq.symm
    | jnull => rw [hpd] at h; simp at h
    | jbool b => rw [hpd] at h; simp at h
    | jnum n => rw [hpd] at h; simp at h
    | jstr s => rw [hpd] at h; simp at h
    | jarr xs => rw [hpd] at h; simp at h
  | jnull => simp [planDataOf] at h
  | jbool b => simp [planDataOf] at h
  | jnum n => simp [planDataOf] at h
  | jstr s => simp [planDataOf] at h
  | jarr xs => simp [planDataOf] at h

/-- C3 witness: the amended iff applied to a well-formed pending payload
(the parser accepts it and the amended condition is false). -/
theorem parse_plan_raises_iff_amended_witness :
    (match parsePlaywrightPlan c3GoodPayload with
     | .ok _ => claimRejects c3GoodPlanData = false
     | .err _ => claimRejects c3GoodPlanData = true
     | .pyerr => False) :=
  parse_plan_raises_iff_amended c3GoodPayload c3GoodPlanData (by rfl)

/- Executor lemmas (claim C1). -/

theorem pageWrite_fst (kv : String × PageField) (sel v : String) :
    (if kv.fst == sel then (kv.fst, { kv.snd with value := v }) else kv).fst = kv.fst := by
  by_cases h : (kv.fst == sel) = true <;> simp [h]

theorem pageWrite_pageHas (p : PageState) (sel v x : String) :
    pageHas (pageWrite p sel v) x = pageHas p x := by
  induction p with
  | nil => rfl
  | cons kv rest ih =>
    unfold pageWrite pageHas at ih ⊢
    simp only [List.map_cons, List.any_cons, pageWrite_fst]
    rw [ih]

theorem pageWrite_val (p : PageState) (k v : String) (h : pageHas p k = true) :
    pageVal (pageWrite p k v) k = some v := by
  induction p with
  | nil => simp [pageHas] at h
  | cons kv rest ih =>
    by_cases ha : (kv.fst == k) = true
    · unfold pageVal pageRead pageWrite
      simp only [List.map_cons, List.find?_cons, ha, if_true]
      simp [ha]
    · unfold pageHas at h
      simp only [List.any_cons, ha, Bool.false_or] at h
      have hres := ih h
      unfold pageVal pageRead pageWrite at hres ⊢
      simp only [List.map_cons, List.find?_cons, ha, if_false]
      simpa [ha] using hres

theorem nativeSelectRun_pageHas (p : PageState) (sel v : String) (f : PageField)
    (p2 : PageState) (w : Nat) (h : nativeSelectRun p sel v f = .ok (p2, w)) (x : String) :
    pageHas p2 x = pageHas p x := by
  unfold nativeSelectRun at h
  repeat' split at h
  all_goals try simp_all
  all_goals (obtain ⟨h1, h2⟩ := h; subst h1; exact pageWrite_pageHas _ _ _ _)

theorem searchableRun_pageHas (p : PageState) (sel v : String) (f : PageField)
    (pick : Option String) (p2 : PageState) (w : Nat)
    (h : searchableRun p sel v f pick = .ok (p2, w)) (x : String) :
    pageHas p2 x = pageHas p x := by
  unfold searchableRun at h
  repeat' split at h
  all_goals try simp_all
  all_goals (obtain ⟨h1, h2⟩ := h; subst h1; exact pageWrite_pageHas _ _ _ _)

theorem customDropdownRun_pageHas (p : PageState) (sel v : String) (f : PageField)
    (pick : Option String) (p2 : PageState) (w : Nat)
    (h : customDropdownRun p sel v f pick = .ok (p2, w)) (x : String) :
    pageHas p2 x = pageHas p x := by
  unfold customDropdownRun at h
  repeat' split at h
  all_goals try exact searchableRun_pageHas p sel v f pick p2 w h x
  all_goals try simp_all
  all_goals (obtain ⟨h1, h2⟩ := h; subst h1; exact pageWrite_pageHas _ _ _ _)

theorem ffUpsert_mem_self (ff : FilledFields) (k v : String) :
    (k, v) ∈ ffUpsert ff k v := by
  unfold ffUpsert
  by_cases h : ff.any (fun kv => kv.fst == k) = true
  · simp only [h, if_true]
    simp only [List.any_eq_true] at h
    obtain ⟨kv, hmem, hk⟩ := h
    rw [List.mem_map]
    refine ⟨kv, hmem, ?_⟩
    simp only [hk, if_true]
    simp only [beq_iff_eq] at hk
    rw [hk]
  · simp [h]

theorem ffUpsert_mem_preserved (ff : FilledFields) (s wv k v : String)
    (hmem : (s, wv) ∈ ff) (hne : k ≠ s) :
    (s, wv) ∈ ffUpsert ff k v := by
  unfold ffUpsert
  by_cases h : ff.any (fun kv => kv.fst == k) = true
  · simp only [h, if_true]
    rw [List.mem_map]
    refine ⟨(s, wv), hmem, ?_⟩
    have : ((s, wv).fst == k) = false := by simp; exact fun hh => hne hh.symm
    simp [this]
  · simp only [h]
    simp [List.mem_append, hmem]

theorem optTruthy_getD (o : Option String) (h : optTruthy o = true) :
    o = some (o.getD "") ∧ o.getD "" ≠ "" := by
  cases o with
  | none => simp [optTruthy] at h
  | some s =>
    simp [optTruthy] at h
    simp [h]

theorem pyStrip_empty : pyStrip "" = "" := rfl

theorem valueOverlap_strip (v : String) : valueOverlap v (pyStrip v) = true := by
  unfold valueOverlap
  have h : pyInStr (pyLower (pyStrip v)) (pyLower v) = true :=
    pyInStr_of_mid _ _ (pyLower_strip_mid v)
  simp [h]

theorem selectorOverlap_self (s : String) : selectorOverlap s s = true := by
  simp [selectorOverlap]

theorem runStep_pageHas (llm : Llm) (st : ExecStep) (p p2 : PageState) (w : Nat)
    (h : runStep llm st p = .ok (p2, w)) (x : String) : pageHas p2 x = pageHas p x := by
  unfold runStep at h
  split at h
  all_goals repeat' split at h
  all_goals first
    | exact nativeSelectRun_pageHas _ _ _ _ _ _ h x
    | exact customDropdownRun_pageHas _ _ _ _ _ _ _ h x
    | (injection h with h; injection h with ha hb; subst ha; exact pageWrite_pageHas _ _ _ _)
    | simp_all [pageWrite_pageHas]

theorem runStep_nonwrite_eq (llm : Llm) (st : ExecStep) (p p2 : PageState) (w : Nat)
    (hnw : writeAction st.action = false)
    (h : runStep llm st p = .ok (p2, w)) : p2 = p ∧ w = 0 := by
  unfold runStep at h
  split at h
  all_goals repeat' split at h
  all_goals simp_all [writeAction]

theorem runStep_congr_nonwrite (llm : Llm) (st : ExecStep) (p q p2 : PageState) (w : Nat)
    (hnw : writeAction st.action = false)
    (hq : ∀ x, pageHas q x = pageHas p x)
    (h : runStep llm st p = .ok (p2, w)) :
    runStep llm st q = .ok (q, 0) := by
  unfold runStep at h ⊢
  split at h
  all_goals repeat' split at h
  all_goals simp_all [writeAction, hq]

theorem runStep_fill_eq (llm : Llm) (st : ExecStep) (p p2 : PageState) (w : Nat)
    (hf : st.action = "fill")
    (h : runStep llm st p = .ok (p2, w)) :
    st.value = some (st.value.getD "") ∧
      p2 = pageWrite p (fixSelector (st.selector.getD "")) (st.value.getD "") ∧ w = 1 ∧
      pageHas p (fixSelector (st.selector.getD "")) = true := by
  unfold runStep at h
  rw [hf] at h
  repeat' split at h
  all_goals simp_all

theorem stepFiltered_nil (st : ExecStep) : stepFiltered [] st = false := by
  simp [stepFiltered, alreadyFilledCheck]

theorem filter_stepFiltered_nil (steps : List ExecStep) :
    steps.filter (fun st => !(stepFiltered [] st)) = steps :=
  List.filter_eq_self.mpr (fun st _ => by simp [stepFiltered_nil])

theorem execSteps_nil_inv (llm : Llm) (p : PageState) (ff : FilledFields) (p1 ff1 w1)
    (h : execSteps llm [] p ff = .ok (p1, ff1, w1)) : p1 = p ∧ ff1 = ff ∧ w1 = 0 := by
  unfold execSteps at h
  simp only [Except.ok.injEq, Prod.mk.injEq] at h
  exact ⟨h.1.symm, h.2.1.symm, h.2.2.symm⟩

theorem execSteps_cons_inv (llm : Llm) (st : ExecStep) (rest : List ExecStep) (p : PageState)
    (ff : FilledFields) (p1 ff1 w1)
    (h : execSteps llm (st :: rest) p ff = .ok (p1, ff1, w1)) :
    ∃ p2 w w3, runStep llm st p = .ok (p2, w) ∧
      execSteps llm rest p2 (if writeAction st.action && optTruthy st.selector then
        recordField p2 ff (st.selector.getD "") else ff) = .ok (p1, ff1, w3) ∧
      w1 = w + w3 := by
  unfold execSteps at h
  cases hrs : runStep llm st p with
  | error e => rw [hrs] at h; simp at h
  | ok pw =>
    obtain ⟨p2, w⟩ := pw
    rw [hrs] at h
    try dsimp only at h
    cases hex : execSteps llm rest p2 (if writeAction st.action && optTruthy st.selector then
        recordField p2 ff (st.selector.getD "") else ff) with
    | error e => rw [hex] at h; simp at h
    | ok tr =>
      obtain ⟨p3, ff3, w3⟩ := tr
      rw [hex] at h
      try dsimp only at h
      simp only [Except.ok.injEq, Prod.mk.injEq] at h
      obtain ⟨h1, h2, h3⟩ := h
      subst h1
      subst h2
      exact ⟨p2, w, w3, rfl, hex, h3.symm⟩

theorem execSteps_keys (llm : Llm) (steps : List ExecStep) (p : PageState) (ff : FilledFields)
    (p1 ff1 w1) (h : execSteps llm steps p ff = .ok (p1, ff1, w1)) (x : String) :
    pageHas p1 x = pageHas p x := by
  induction steps generalizing p ff p1 ff1 w1 with
  | nil =>
    obtain ⟨h1, _, _⟩ := execSteps_nil_inv llm p ff p1 ff1 w1 h
    rw [h1]
  | cons st rest ih =>
    obtain ⟨p2, w, w3, hrs, hex, _⟩ := execSteps_cons_inv llm st rest p ff p1 ff1 w1 h
    exact (ih p2 _ p1 ff1 w3 hex).trans (runStep_pageHas llm st p p2 w hrs x)

theorem execSteps_step_ok (llm : Llm) (steps : List ExecStep) (p : PageState)
    (ff : FilledFields) (p1 ff1 w1) (q : PageState)
    (h : execSteps llm steps p ff = .ok (p1, ff1, w1))
    (st : ExecStep) (hst : st ∈ steps) (hnw : writeAction st.action = false)
    (hq : ∀ x, pageHas q x = pageHas p x) :
    runStep llm st q = .ok (q, 0) := by
  induction steps generalizing p ff p1 ff1 w1 with
  | nil => cases hst
  | cons st0 rest ih =>
    obtain ⟨p2, w, w3, hrs, hex, _⟩ := execSteps_cons_inv llm st0 rest p ff p1 ff1 w1 h
    rcases List.mem_cons.mp hst with rfl | hmem
    · exact runStep_congr_nonwrite llm st p q p2 w hnw hq hrs
    · exact ih p2 _ p1 ff1 w3 hex hmem
        (fun x => (hq x).trans (runStep_pageHas llm st0 p p2 w hrs x).symm)

theorem execSteps_count (llm : Llm) (steps : List ExecStep) (p : PageState)
    (ff : FilledFields) (p1 ff1 w1) (h : execSteps llm steps p ff = .ok (p1, ff1, w1))
    (hFill : ∀ st ∈ steps, writeAction st.action = true → st.action = "fill") :
    w1 = (steps.filter (fun st => writeAction st.action)).length := by
  induction steps generalizing p ff p1 ff1 w1 with
  | nil =>
    obtain ⟨_, _, h3⟩ := execSteps_nil_inv llm p ff p1 ff1 w1 h
    simp [h3]
  | cons st rest ih =>
    obtain ⟨p2, w, w3, hrs, hex, hsum⟩ := execSteps_cons_inv llm st rest p ff p1 ff1 w1 h
    cases hwr : writeAction st.action with
    | true =>
      obtain ⟨_, _, hw1, _⟩ := runStep_fill_eq llm st p p2 w
        (hFill st (List.mem_cons_self st rest) hwr) hrs
      rw [hsum, hw1, ih p2 _ p1 ff1 w3 hex
        (fun st2 h2 => hFill st2 (List.mem_cons_of_mem st h2))]
      simp [List.filter_cons, hwr]
      omega
    | false =>
      obtain ⟨_, hw0⟩ := runStep_nonwrite_eq llm st p p2 w hwr hrs
      rw [hsum, hw0, ih p2 _ p1 ff1 w3 hex
        (fun st2 h2 => hFill st2 (List.mem_cons_of_mem st h2))]
      simp [List.filter_cons, hwr]

theorem recordField_mem_preserved (p : PageState) (ff : FilledFields) (sel s wv : String)
    (hmem : (s, wv) ∈ ff) (hne : sel ≠ s) :
    (s, wv) ∈ recordField p ff sel := by
  unfold recordField
  repeat' split
  all_goals first
    | exact hmem
    | exact ffUpsert_mem_preserved ff s wv sel _ hmem hne

theorem execSteps_persist (llm : Llm) (steps : List ExecStep) (p : PageState)
    (ff : FilledFields) (p1 ff1 w1) (h : execSteps llm steps p ff = .ok (p1, ff1, w1))
    (s wv : String) (hmem : (s, wv) ∈ ff)
    (hne : ∀ st ∈ steps, writeAction st.action = true → optTruthy st.selector = true →
      st.selector.getD "" ≠ s) :
    (s, wv) ∈ ff1 := by
  induction steps generalizing p ff p1 ff1 w1 with
  | nil =>
    obtain ⟨_, h2, _⟩ := execSteps_nil_inv llm p ff p1 ff1 w1 h
    rw [h2]; exact hmem
  | cons st0 rest ih =>
    obtain ⟨p2, w, w3, hrs, hex, _⟩ := execSteps_cons_inv llm st0 rest p ff p1 ff1 w1 h
    have hmem2 : (s, wv) ∈ (if writeAction st0.action && optTruthy st0.selector then
        recordField p2 ff (st0.selector.getD "") else ff) := by
      cases hc : (writeAction st0.action && optTruthy st0.selector) with
      | false => rw [if_neg (by simp [hc])]; exact hmem
      | true =>
        rw [if_pos (by simp [hc])]
        rw [Bool.and_eq_true] at hc
        exact recordField_mem_preserved p2 ff _ s wv hmem
          (hne st0 (List.mem_cons_self st0 rest) hc.1 hc.2)
    exact ih p2 _ p1 ff1 w3 hex hmem2
      (fun st2 h2 => hne st2 (List.mem_cons_of_mem st0 h2))

theorem pairwise_tail_writes (st0 : ExecStep) (rest : List ExecStep)
    (hPW : (((st0 :: rest).filter (fun st => writeAction st.action)).map
      (fun st => st.selector.getD "")).Pairwise (fun a b => selectorOverlap a b = false)) :
    ((rest.filter (fun st => writeAction st.action)).map
      (fun st => st.selector.getD "")).Pairwise (fun a b => selectorOverlap a b = false) := by
  cases hwr : writeAction st0.action with
  | true =>
    rw [List.filter_cons, hwr] at hPW
    simp only [if_true, List.map_cons] at hPW
    exact hPW.of_cons
  | false =>
    rw [List.filter_cons, hwr] at hPW
    simpa using hPW

theorem pairwise_head_writes (st0 : ExecStep) (rest : List ExecStep)
    (hwr : writeAction st0.action = true)
    (hPW : (((st0 :: rest).filter (fun st => writeAction st.action)).map
      (fun st => st.selector.getD "")).Pairwise (fun a b => selectorOverlap a b = false))
    (st2 : ExecStep) (h2 : st2 ∈ rest) (hw2 : writeAction st2.action = true) :
    selectorOverlap (st0.selector.getD "") (st2.selector.getD "") = false := by
  rw [List.filter_cons, hwr] at hPW
  simp only [if_true, List.map_cons, List.pairwise_cons] at hPW
  exact hPW.1 _ (List.mem_map_of_mem _ (List.mem_filter.mpr ⟨h2, hw2⟩))

theorem execSteps_records (llm : Llm) (steps : List ExecStep) (p : PageState)
    (ff : FilledFields) (p1 ff1 w1) (h : execSteps llm steps p ff = .ok (p1, ff1, w1))
    (hPW : ((steps.filter (fun st => writeAction st.action)).map
      (fun st => st.selector.getD "")).Pairwise (fun a b => selectorOverlap a b = false))
    (st : ExecStep) (hst : st ∈ steps) (hwr : writeAction st.action = true)
    (hf : st.action = "fill")
    (hsel : optTruthy st.selector = true)
    (hvs : pyStrip (st.value.getD "") ≠ "") :
    (st.selector.getD "", pyStrip (st.value.getD "")) ∈ ff1 := by
  induction steps generalizing p ff p1 ff1 w1 with
  | nil => cases hst
  | cons st0 rest ih =>
    obtain ⟨p2, w, w3, hrs, hex, _⟩ := execSteps_cons_inv llm st0 rest p ff p1 ff1 w1 h
    rcases List.mem_cons.mp hst with rfl | hmem
    · obtain ⟨hv, hp2, _, hhas⟩ := runStep_fill_eq llm st p p2 w hf hrs
      have hread : pageVal p2 (fixSelector (st.selector.getD "")) =
          some (st.value.getD "") := by
        rw [hp2]
        exact pageWrite_val p _ _ hhas
      have hhas2 : pageHas p2 (fixSelector (st.selector.getD "")) = true := by
        rw [hp2, pageWrite_pageHas]
        exact hhas
      have hvne : (st.value.getD "") ≠ "" := by
        intro hveq
        exact hvs (by rw [hveq]; rfl)
      have hff2 : (if writeAction st.action && optTruthy st.selector then
          recordField p2 ff (st.selector.getD "") else ff) =
          ffUpsert ff (st.selector.getD "") (pyStrip (st.value.getD "")) := by
        rw [hwr, hsel]
        simp only [Bool.and_self, if_true]
        unfold recordField
        rw [hhas2, hread]
        simp only [if_true]
        have h1 : ((st.value.getD "") == "") = false := by simp [hvne]
        have h2 : (pyStrip (st.value.getD "") == "") = false := by simp [hvs]
        simp [h1, h2]
      rw [hff2] at hex
      exact execSteps_persist llm rest p2 _ p1 ff1 w3 hex _ _
        (ffUpsert_mem_self ff _ _)
        (fun st2 h2 hw2 _ => by
          have hov := pairwise_head_writes st rest hwr hPW st2 h2 hw2
          intro hkeq
          rw [hkeq] at hov
          rw [selectorOverlap_self] at hov
          cases hov)
    · exact ih p2 _ p1 ff1 w3 hex (pairwise_tail_writes st0 rest hPW) hmem

theorem alreadyFilledCheck_of_mem (st : ExecStep) (ff : FilledFields) (s v : String)
    (hsel : st.selector = some s) (hv : st.value = some v) (hvne : v ≠ "")
    (fs fv : String) (hmem : (fs, fv) ∈ ff) (hov : selectorOverlap s fs = true)
    (hval : fv = "" ∨ valueOverlap v fv = true) :
    alreadyFilledCheck st ff = true := by
  induction ff with
  | nil => cases hmem
  | cons kv rest ih =>
    obtain ⟨a, b⟩ := kv
    unfold alreadyFilledCheck
    rw [hsel, hv]
    simp only [Option.getD_some]
    have hvt : optTruthy (some v) = true := by simp [optTruthy, hvne]
    by_cases hova : selectorOverlap s a = true
    · rw [hvt]
      simp only [hova, if_true]
      by_cases hb : (b == "") = true
      · simp [hb]
      · simp only [Bool.not_eq_true] at hb
        simp only [hb, Bool.true_and, Bool.not_false, if_true]
        by_cases hvo : valueOverlap v b = true
        · simp [hvo]
        · simp only [Bool.not_eq_true] at hvo
          simp only [hvo, Bool.false_eq_true, if_false]
          rcases List.mem_cons.mp hmem with heq | hmem2
          · exfalso
            cases heq
            rcases hval with h1 | h2
            · rw [h1] at hb; simp at hb
            · rw [h2] at hvo; cases hvo
          · exact ih hmem2
    · have hova2 : selectorOverlap s a = false := by simpa using hova
      simp only [hova2, Bool.false_eq_true, if_false]
      rcases List.mem_cons.mp hmem with heq | hmem2
      · exfalso
        cases heq
        rw [hov] at hova2
        cases hova2
      · exact ih hmem2

theorem execSteps_nonwrite_run (llm : Llm) (l : List ExecStep) (p : PageState)
    (ff : FilledFields)
    (hok : ∀ st ∈ l, writeAction st.action = false ∧ runStep llm st p = .ok (p, 0)) :
    execSteps llm l p ff = .ok (p, ff, 0) := by
  induction l with
  | nil => rfl
  | cons st rest ih =>
    obtain ⟨hnw, hrs⟩ := hok st (List.mem_cons_self st rest)
    unfold execSteps
    rw [hrs]
    try dsimp only
    simp only [hnw, Bool.false_and, Bool.false_eq_true, if_false]
    rw [ih (fun st2 h2 => hok st2 (List.mem_cons_of_mem st h2))]


/-- C1 counterexample: a validated plan that fills the same selector
twice with non-overlapping values.  The first execution ends with the
field holding "beta" and records it; the second execution skips only the
second fill (its value overlaps the record) but re-runs the first one, so
the final field values of the two passes differ — re-execution is not
idempotent as claimed. -/
theorem execute_plan_twice_changes_values :
    executePlanOnPage noLlm c1Steps c1Page [] =
      .ok ([("#field", txtField "beta")], [("#field", "beta")], 2) ∧
      executePlanOnPage noLlm c1Steps [("#field", txtField "beta")] [("#field", "beta")] =
        .ok ([("#field", txtField "alpha")], [("#field", "alpha")], 1) ∧
      ¬ pageVal [("#field", txtField "alpha")] "#field" =
          pageVal [("#field", txtField "beta")] "#field" :=
  ⟨rfl, rfl, by decide⟩

/-- C1 (corrected): for a validated plan whose write steps are fill steps
with non-empty selectors, pairwise non-overlapping selector strings and
values that are non-empty after stripping, a second execution passing in
the filledFields returned by a successful first execution leaves the page
unchanged, returns the same filledFields, and performs zero write actions
(the first pass performed one write per write step, so the second pass
performs strictly fewer whenever the plan writes at all); every write
step is skipped by the filter and skipped steps do not mutate the page.
The statement holds for every dropdown selection oracle. -/
theorem execute_plan_second_pass_no_writes (llm : Llm) (steps : List ExecStep)
    (p0 p1 : PageState) (ff1 : FilledFields) (w1 : Nat)
    (hW : ∀ st ∈ steps, writeAction st.action = true →
      (st.action == "fill" && optTruthy st.selector && st.value.isSome
        && !(pyStrip (st.value.getD "") == "")) = true)
    (hPW : ((steps.filter (fun st => writeAction st.action)).map
      (fun st => st.selector.getD "")).Pairwise (fun a b => selectorOverlap a b = false))
    (hRun : executePlanOnPage llm steps p0 [] = .ok (p1, ff1, w1)) :
    executePlanOnPage llm steps p1 ff1 = .ok (p1, ff1, 0) ∧
      w1 = (steps.filter (fun st => writeAction st.action)).length := by
  unfold executePlanOnPage at hRun
  rw [filter_stepFiltered_nil] at hRun
  have hkeys : ∀ x, pageHas p1 x = pageHas p0 x :=
    execSteps_keys llm steps p0 [] p1 ff1 w1 hRun
  have hFill : ∀ st ∈ steps, writeAction st.action = true → st.action = "fill" := by
    intro st hst hwr
    have hs := hW st hst hwr
    simp only [Bool.and_eq_true] at hs
    have haf := hs.1.1.1
    simpa using haf
  have hfil2 : steps.filter (fun st => !(stepFiltered ff1 st)) =
      steps.filter (fun st => !(writeAction st.action)) := by
    apply List.filter_congr
    intro st hst
    cases hwr : writeAction st.action with
    | false => simp [stepFiltered, hwr]
    | true =>
      have hs := hW st hst hwr
      simp only [Bool.and_eq_true] at hs
      obtain ⟨⟨⟨haf, hsel⟩, hvsome⟩, hvs⟩ := hs
      obtain ⟨hseleq, hsne⟩ := optTruthy_getD st.selector hsel
      have hveq : st.value = some (st.value.getD "") := by
        cases hvv : st.value with
        | none => rw [hvv] at hvsome; cases hvsome
        | some v => simp
      have hvne' : pyStrip (st.value.getD "") ≠ "" := by
        intro hh
        rw [hh] at hvs
        simp at hvs
      have hrec := execSteps_records llm steps p0 [] p1 ff1 w1 hRun hPW st hst hwr
        (hFill st hst hwr) hsel hvne'
      have hvne : st.value.getD "" ≠ "" := fun hh => hvne' (by rw [hh]; rfl)
      have hacf : alreadyFilledCheck st ff1 = true :=
        alreadyFilledCheck_of_mem st ff1 (st.selector.getD "") (st.value.getD "")
          hseleq hveq hvne _ _ hrec (selectorOverlap_self _)
          (Or.inr (valueOverlap_strip _))
      simp [stepFiltered, hwr, hsel, hacf]
  constructor
  · unfold executePlanOnPage
    rw [hfil2]
    apply execSteps_nonwrite_run
    intro st hst
    have hm := List.mem_filter.mp hst
    have hnw : writeAction st.action = false := by simpa using hm.2
    exact ⟨hnw, execSteps_step_ok llm steps p0 [] p1 ff1 w1 p1 hRun st hm.1 hnw hkeys⟩
  · exact execSteps_count llm steps p0 [] p1 ff1 w1 hRun hFill

/-- C1 witness: the amended idempotence on the concrete two-step plan
(one fill, one click): the second pass is a no-op with zero writes. -/
theorem execute_plan_second_pass_no_writes_witness :
    executePlanOnPage noLlm c1wSteps c1wPage1 c1wFF1 = .ok (c1wPage1, c1wFF1, 0) ∧
      1 = (c1wSteps.filter (fun st => writeAction st.action)).length :=
  execute_plan_second_pass_no_writes noLlm c1wSteps c1wPage c1wPage1 c1wFF1 1
    (by decide) (by decide) (by rfl)

end Appli
